import Mathlib

/-!
Verification of the GenRefactorer MCP core: a shallow embedding of the
`McpBridge` reconnecting-socket state machine, the `McpCoordinator`
message dispatcher, and the `ActionOrchestrator` registry, together with
theorems settling the specification claims about them.
-/

namespace GenRefactorer

/-! ### Bus events (AssistantEventBus observable effects) -/

inductive LogLevel
  | info
  | warn
  | error
deriving DecidableEq

inductive AssistantStatus
  | idle
  | processing
  | error
deriving DecidableEq

inductive BridgeState
  | disconnected
  | connecting
  | ready
  | error
deriving DecidableEq

inductive Direction
  | inbound
  | outbound
deriving DecidableEq

inductive BusEvent
  | log (message : String) (level : LogLevel)
  | status (status : AssistantStatus) (lastMessage : Option String)
  | bridgeState (state : BridgeState) (message : Option String)
  | bridgeMessage (direction : Direction) (msgType : String)
deriving DecidableEq

def isOutboundBridgeMessage : BusEvent → Bool
  | BusEvent.bridgeMessage Direction.outbound _ => true
  | _ => false

/-! ### McpBridge (mcpBridge.ts)

The bridge object state mirrors the fields of the `McpBridge` class; the
surrounding `BridgeWorld` additionally tracks, for every WebSocket object
ever constructed, its phase (connecting / opened / closed-or-terminated),
so that "at most one live socket" is expressible.  `phases` is total over
socket ids; ids at or above `nextId` have never been constructed and are
recorded as closed. -/

structure McpBridgeConfiguration where
  enabled : Bool
  endpoint : Option String
  authToken : Option String
deriving DecidableEq

def DEFAULT_CONFIG : McpBridgeConfiguration :=
  { enabled := false, endpoint := none, authToken := none }

def MAX_BACKOFF_MS : Nat := 30000

inductive SocketPhase
  | connecting
  | opened
  | closed
deriving DecidableEq

structure McpBridge where
  config : McpBridgeConfiguration
  socket : Option Nat
  reconnectTimer : Option Nat
  state : BridgeState
  disposed : Bool
  lastMessage : Option String
  retryCount : Nat
deriving DecidableEq

structure BridgeWorld where
  bridge : McpBridge
  phases : Nat → SocketPhase
  nextId : Nat
  bus : List BusEvent

def busLog (w : BridgeWorld) (message : String) (level : LogLevel) : BridgeWorld :=
  { w with bus := w.bus ++ [BusEvent.log message level] }

def updateState (w : BridgeWorld) (state : BridgeState) (message : Option String) :
    BridgeWorld :=
  if w.bridge.state = state ∧ w.bridge.lastMessage = message then w
  else
    { w with
      bridge := { w.bridge with state := state, lastMessage := message },
      bus := w.bus ++ [BusEvent.bridgeState state message] }

def clearReconnect (w : BridgeWorld) : BridgeWorld :=
  { w with bridge := { w.bridge with reconnectTimer := none } }

def closeSocket (w : BridgeWorld) : BridgeWorld :=
  match w.bridge.socket with
  | none => w
  | some i =>
      { w with
        bridge := { w.bridge with socket := none },
        phases := fun j => if j = i then SocketPhase.closed else w.phases j }

def socketIsOpen (w : BridgeWorld) : Bool :=
  match w.bridge.socket with
  | none => false
  | some i => w.phases i == SocketPhase.opened

def send (w : BridgeWorld) (msgType : String) (silent : Bool) (throwMsg : Option String) :
    Bool × BridgeWorld :=
  if socketIsOpen w = false then
    (false,
      busLog w "MCP bridge is not connected. Enable it in settings and wait for Ready state."
        LogLevel.warn)
  else
    match throwMsg with
    | none =>
        let w1 := { w with bus := w.bus ++ [BusEvent.bridgeMessage Direction.outbound msgType] }
        let w2 :=
          if silent then w1
          else busLog w1 ("Sent MCP message (" ++ msgType ++ ").") LogLevel.info
        (true, w2)
    | some msg =>
        let w1 := busLog w ("Failed to send MCP message: " ++ msg) LogLevel.error
        (false, updateState w1 BridgeState.error (some msg))

def handleError (w : BridgeWorld) (message : String) : BridgeWorld :=
  let w1 := busLog w ("MCP bridge error: " ++ message) LogLevel.error
  updateState w1 BridgeState.error (some message)

def reconnectDelay (retryCount : Nat) : Nat :=
  min (1000 * 2 ^ (min retryCount 5)) MAX_BACKOFF_MS

def scheduleReconnect (w : BridgeWorld) : BridgeWorld :=
  if w.bridge.disposed = true ∨ w.bridge.config.enabled = false then w
  else
    let w1 := clearReconnect w
    let rc := w1.bridge.retryCount + 1
    let w2 := { w1 with bridge := { w1.bridge with retryCount := rc } }
    let w3 := busLog w2 "Retrying MCP bridge connection..." LogLevel.warn
    { w3 with bridge := { w3.bridge with reconnectTimer := some (reconnectDelay rc) } }

def connect (w : BridgeWorld) (ctorOk : Bool) : BridgeWorld :=
  if w.bridge.disposed = true then w
  else
    let endpoint := (w.bridge.config.endpoint).getD ""
    let w1 :=
      updateState w BridgeState.connecting
        (some ("Connecting to MCP server at " ++ endpoint ++ "..."))
    let w2 := busLog w1 ("Connecting to MCP bridge (" ++ endpoint ++ ")...") LogLevel.info
    if ctorOk then
      { w2 with
        bridge := { w2.bridge with socket := some w2.nextId },
        phases := fun j => if j = w2.nextId then SocketPhase.connecting else w2.phases j,
        nextId := w2.nextId + 1 }
    else
      scheduleReconnect (handleError w2 "WebSocket constructor threw")

def restart (w : BridgeWorld) (ctorOk : Bool) : BridgeWorld :=
  let w1 := closeSocket (clearReconnect w)
  if w1.bridge.config.enabled = false then
    updateState w1 BridgeState.disconnected
      (some "MCP bridge disabled. Enable it in settings to connect.")
  else
    match w1.bridge.config.endpoint with
    | none =>
        updateState w1 BridgeState.error
          (some "Set genRefactorer.assistant.mcpEndpoint before enabling the MCP bridge.")
    | some _ => connect w1 ctorOk

def applyConfiguration (w : BridgeWorld) (cfg : McpBridgeConfiguration) (ctorOk : Bool) :
    BridgeWorld :=
  restart { w with bridge := { w.bridge with config := cfg } } ctorOk

def disposeBridge (w : BridgeWorld) : BridgeWorld :=
  closeSocket (clearReconnect { w with bridge := { w.bridge with disposed := true } })

def onSocketOpen (w : BridgeWorld) (helloThrow : Option String) : BridgeWorld :=
  match w.bridge.socket with
  | none => w
  | some i =>
      if w.phases i = SocketPhase.connecting then
        let w1 := { w with phases := fun j => if j = i then SocketPhase.opened else w.phases j }
        let w2 := { w1 with bridge := { w1.bridge with retryCount := 0 } }
        let endpoint := (w2.bridge.config.endpoint).getD ""
        let w3 := updateState w2 BridgeState.ready (some ("Connected to " ++ endpoint))
        let w4 := busLog w3 "MCP bridge connected." LogLevel.info
        (send w4 "assistant/hello" true helloThrow).2
      else w

def onSocketMessage (w : BridgeWorld) (parsed : Option String) (raw : String) : BridgeWorld :=
  match w.bridge.socket with
  | none => w
  | some i =>
      if w.phases i = SocketPhase.closed then w
      else
        match parsed with
        | none => busLog w ("Received non-JSON MCP payload: " ++ raw) LogLevel.warn
        | some t =>
            busLog { w with bus := w.bus ++ [BusEvent.bridgeMessage Direction.inbound t] }
              ("MCP message received (" ++ t ++ ").") LogLevel.info

def onSocketClose (w : BridgeWorld) (code : Nat) (reason : String) : BridgeWorld :=
  match w.bridge.socket with
  | none => w
  | some i =>
      if w.phases i = SocketPhase.closed then w
      else
        let w1 := { w with phases := fun j => if j = i then SocketPhase.closed else w.phases j }
        let w2 :=
          busLog w1 ("MCP bridge closed (" ++ toString code ++ "): " ++ reason) LogLevel.warn
        let w3 := updateState w2 BridgeState.disconnected (some "Connection closed. Reconnecting...")
        scheduleReconnect w3

def onSocketError (w : BridgeWorld) (message : String) : BridgeWorld :=
  match w.bridge.socket with
  | none => w
  | some i =>
      if w.phases i = SocketPhase.closed then w
      else handleError w message

def onTimerFire (w : BridgeWorld) (ctorOk : Bool) : BridgeWorld :=
  match w.bridge.reconnectTimer with
  | none => w
  | some _ => connect (clearReconnect w) ctorOk

inductive BridgeEvent
  | applyConfig (cfg : McpBridgeConfiguration) (ctorOk : Bool)
  | timerFire (ctorOk : Bool)
  | socketOpen (helloThrow : Option String)
  | socketMessage (parsed : Option String) (raw : String)
  | socketClose (code : Nat) (reason : String)
  | socketError (message : String)
  | sendMessage (msgType : String) (silent : Bool) (throwMsg : Option String)
  | disposeEv

def stepBridge (w : BridgeWorld) : BridgeEvent → BridgeWorld
  | BridgeEvent.applyConfig cfg ctorOk => applyConfiguration w cfg ctorOk
  | BridgeEvent.timerFire ctorOk => onTimerFire w ctorOk
  | BridgeEvent.socketOpen helloThrow => onSocketOpen w helloThrow
  | BridgeEvent.socketMessage parsed raw => onSocketMessage w parsed raw
  | BridgeEvent.socketClose code reason => onSocketClose w code reason
  | BridgeEvent.socketError message => onSocketError w message
  | BridgeEvent.sendMessage t silent throwMsg => (send w t silent throwMsg).2
  | BridgeEvent.disposeEv => disposeBridge w

def initBridgeWorld : BridgeWorld :=
  { bridge :=
      { config := DEFAULT_CONFIG, socket := none, reconnectTimer := none,
        state := BridgeState.disconnected, disposed := false, lastMessage := none,
        retryCount := 0 },
    phases := fun _ => SocketPhase.closed, nextId := 0, bus := [] }

def runBridge (events : List BridgeEvent) : BridgeWorld :=
  events.foldl stepBridge initBridgeWorld

/-! ### Projection lemmas for the bridge operations -/

@[simp] lemma busLog_bridge (w : BridgeWorld) (m : String) (l : LogLevel) :
    (busLog w m l).bridge = w.bridge := rfl

@[simp] lemma busLog_phases (w : BridgeWorld) (m : String) (l : LogLevel) :
    (busLog w m l).phases = w.phases := rfl

@[simp] lemma busLog_nextId (w : BridgeWorld) (m : String) (l : LogLevel) :
    (busLog w m l).nextId = w.nextId := rfl

@[simp] lemma busLog_bus (w : BridgeWorld) (m : String) (l : LogLevel) :
    (busLog w m l).bus = w.bus ++ [BusEvent.log m l] := rfl

@[simp] lemma updateState_phases (w : BridgeWorld) (s : BridgeState) (m : Option String) :
    (updateState w s m).phases = w.phases := by
  unfold updateState; split <;> rfl

@[simp] lemma updateState_socket (w : BridgeWorld) (s : BridgeState) (m : Option String) :
    (updateState w s m).bridge.socket = w.bridge.socket := by
  unfold updateState; split <;> rfl

@[simp] lemma updateState_timer (w : BridgeWorld) (s : BridgeState) (m : Option String) :
    (updateState w s m).bridge.reconnectTimer = w.bridge.reconnectTimer := by
  unfold updateState; split <;> rfl

@[simp] lemma updateState_config (w : BridgeWorld) (s : BridgeState) (m : Option String) :
    (updateState w s m).bridge.config = w.bridge.config := by
  unfold updateState; split <;> rfl

@[simp] lemma updateState_disposed (w : BridgeWorld) (s : BridgeState) (m : Option String) :
    (updateState w s m).bridge.disposed = w.bridge.disposed := by
  unfold updateState; split <;> rfl

@[simp] lemma updateState_retryCount (w : BridgeWorld) (s : BridgeState) (m : Option String) :
    (updateState w s m).bridge.retryCount = w.bridge.retryCount := by
  unfold updateState; split <;> rfl

@[simp] lemma updateState_nextId (w : BridgeWorld) (s : BridgeState) (m : Option String) :
    (updateState w s m).nextId = w.nextId := by
  unfold updateState; split <;> rfl

@[simp] lemma clearReconnect_timer (w : BridgeWorld) :
    (clearReconnect w).bridge.reconnectTimer = none := rfl

@[simp] lemma clearReconnect_socket (w : BridgeWorld) :
    (clearReconnect w).bridge.socket = w.bridge.socket := rfl

@[simp] lemma clearReconnect_phases (w : BridgeWorld) :
    (clearReconnect w).phases = w.phases := rfl

@[simp] lemma clearReconnect_config (w : BridgeWorld) :
    (clearReconnect w).bridge.config = w.bridge.config := rfl

@[simp] lemma clearReconnect_disposed (w : BridgeWorld) :
    (clearReconnect w).bridge.disposed = w.bridge.disposed := rfl

@[simp] lemma clearReconnect_retryCount (w : BridgeWorld) :
    (clearReconnect w).bridge.retryCount = w.bridge.retryCount := rfl

@[simp] lemma clearReconnect_nextId (w : BridgeWorld) :
    (clearReconnect w).nextId = w.nextId := rfl

@[simp] lemma handleError_phases (w : BridgeWorld) (m : String) :
    (handleError w m).phases = w.phases := by
  unfold handleError; simp

@[simp] lemma handleError_socket (w : BridgeWorld) (m : String) :
    (handleError w m).bridge.socket = w.bridge.socket := by
  unfold handleError; simp

@[simp] lemma handleError_timer (w : BridgeWorld) (m : String) :
    (handleError w m).bridge.reconnectTimer = w.bridge.reconnectTimer := by
  unfold handleError; simp

@[simp] lemma handleError_config (w : BridgeWorld) (m : String) :
    (handleError w m).bridge.config = w.bridge.config := by
  unfold handleError; simp

@[simp] lemma handleError_disposed (w : BridgeWorld) (m : String) :
    (handleError w m).bridge.disposed = w.bridge.disposed := by
  unfold handleError; simp

@[simp] lemma handleError_retryCount (w : BridgeWorld) (m : String) :
    (handleError w m).bridge.retryCount = w.bridge.retryCount := by
  unfold handleError; simp

@[simp] lemma handleError_nextId (w : BridgeWorld) (m : String) :
    (handleError w m).nextId = w.nextId := by
  unfold handleError; simp

@[simp] lemma send_snd_phases (w : BridgeWorld) (t : String) (s : Bool) (th : Option String) :
    (send w t s th).2.phases = w.phases := by
  unfold send; split
  · rfl
  · cases th <;> cases s <;> simp

@[simp] lemma send_snd_socket (w : BridgeWorld) (t : String) (s : Bool) (th : Option String) :
    (send w t s th).2.bridge.socket = w.bridge.socket := by
  unfold send; split
  · rfl
  · cases th <;> cases s <;> simp

@[simp] lemma send_snd_timer (w : BridgeWorld) (t : String) (s : Bool) (th : Option String) :
    (send w t s th).2.bridge.reconnectTimer = w.bridge.reconnectTimer := by
  unfold send; split
  · rfl
  · cases th <;> cases s <;> simp

@[simp] lemma scheduleReconnect_phases (w : BridgeWorld) :
    (scheduleReconnect w).phases = w.phases := by
  unfold scheduleReconnect; split <;> simp

@[simp] lemma scheduleReconnect_socket (w : BridgeWorld) :
    (scheduleReconnect w).bridge.socket = w.bridge.socket := by
  unfold scheduleReconnect; split <;> simp

@[simp] lemma closeSocket_timer (w : BridgeWorld) :
    (closeSocket w).bridge.reconnectTimer = w.bridge.reconnectTimer := by
  unfold closeSocket; cases w.bridge.socket <;> rfl

@[simp] lemma closeSocket_config (w : BridgeWorld) :
    (closeSocket w).bridge.config = w.bridge.config := by
  unfold closeSocket; cases w.bridge.socket <;> rfl

@[simp] lemma closeSocket_disposed (w : BridgeWorld) :
    (closeSocket w).bridge.disposed = w.bridge.disposed := by
  unfold closeSocket; cases w.bridge.socket <;> rfl

@[simp] lemma closeSocket_nextId (w : BridgeWorld) :
    (closeSocket w).nextId = w.nextId := by
  unfold closeSocket; cases w.bridge.socket <;> rfl

/-! ### The single-live-socket invariant (claim C1) -/

/-- Every socket that is still live (constructed, not closed and not terminated)
is the one the bridge currently references, and a pending reconnect timer
implies every socket is closed. -/
def SocketInv (w : BridgeWorld) : Prop :=
  (∀ i, w.phases i ≠ SocketPhase.closed → w.bridge.socket = some i) ∧
  (w.bridge.reconnectTimer ≠ none → ∀ i, w.phases i = SocketPhase.closed)

lemma allClosed_closeSocket {w : BridgeWorld} (h : SocketInv w) :
    ∀ i, (closeSocket w).phases i = SocketPhase.closed := by
  intro i
  unfold closeSocket
  cases hs : w.bridge.socket with
  | none =>
      dsimp only
      by_contra hne
      have := h.1 i hne
      rw [hs] at this
      exact Option.noConfusion this
  | some s =>
      dsimp only
      by_cases hi : i = s
      · simp [hi]
      · simp only [if_neg hi]
        by_contra hne
        have := h.1 i hne
        rw [hs] at this
        exact hi (Option.some.injEq _ _ ▸ this).symm

lemma socketInv_of_allClosed {w : BridgeWorld}
    (hall : ∀ i, w.phases i = SocketPhase.closed) : SocketInv w := by
  refine ⟨fun i hi => absurd (hall i) hi, fun _ => hall⟩

lemma socketInv_scheduleReconnect {w : BridgeWorld}
    (hall : ∀ i, w.phases i = SocketPhase.closed) :
    SocketInv (scheduleReconnect w) := by
  apply socketInv_of_allClosed
  intro i
  rw [scheduleReconnect_phases]
  exact hall i

lemma socketInv_mkSocket {w : BridgeWorld}
    (hall : ∀ i, w.phases i = SocketPhase.closed)
    (htimer : w.bridge.reconnectTimer = none) :
    SocketInv { w with
      bridge := { w.bridge with socket := some w.nextId },
      phases := fun j => if j = w.nextId then SocketPhase.connecting else w.phases j,
      nextId := w.nextId + 1 } := by
  constructor
  · intro i hi
    dsimp only at hi ⊢
    by_cases hieq : i = w.nextId
    · simp [hieq]
    · exfalso
      rw [if_neg hieq] at hi
      exact hi (hall i)
  · intro htm
    dsimp only at htm
    exact absurd htimer htm

lemma socketInv_connect {w : BridgeWorld} (ctorOk : Bool)
    (hall : ∀ i, w.phases i = SocketPhase.closed)
    (htimer : w.bridge.reconnectTimer = none) :
    SocketInv (connect w ctorOk) := by
  unfold connect
  dsimp only
  split
  · exact socketInv_of_allClosed hall
  · split
    · apply socketInv_mkSocket
      · intro i
        simp only [busLog_phases, updateState_phases]
        exact hall i
      · simp only [busLog_bridge, updateState_timer]
        exact htimer
    · apply socketInv_scheduleReconnect
      intro i
      simp only [handleError_phases, busLog_phases, updateState_phases]
      exact hall i

lemma socketInv_clearReconnect {w : BridgeWorld} (h : SocketInv w) :
    SocketInv (clearReconnect w) := by
  refine ⟨fun i hi => ?_, fun htm => absurd rfl htm⟩
  simp only [clearReconnect_phases] at hi
  simpa using h.1 i hi

lemma socketInv_restart {w : BridgeWorld} (ctorOk : Bool) (h : SocketInv w) :
    SocketInv (restart w ctorOk) := by
  have hall : ∀ i, (closeSocket (clearReconnect w)).phases i = SocketPhase.closed :=
    allClosed_closeSocket (socketInv_clearReconnect h)
  have htimer : (closeSocket (clearReconnect w)).bridge.reconnectTimer = none := by simp
  unfold restart
  dsimp only
  split
  · apply socketInv_of_allClosed
    intro i
    simpa using hall i
  · split
    · apply socketInv_of_allClosed
      intro i
      simpa using hall i
    · exact socketInv_connect ctorOk hall htimer

lemma socketInv_applyConfiguration {w : BridgeWorld} (cfg : McpBridgeConfiguration)
    (ctorOk : Bool) (h : SocketInv w) :
    SocketInv (applyConfiguration w cfg ctorOk) := by
  apply socketInv_restart
  exact ⟨fun i hi => h.1 i hi, fun htm => h.2 htm⟩

lemma socketInv_disposeBridge {w : BridgeWorld} (h : SocketInv w) :
    SocketInv (disposeBridge w) := by
  unfold disposeBridge
  have h1 : SocketInv (clearReconnect { w with bridge := { w.bridge with disposed := true } }) :=
    socketInv_clearReconnect ⟨fun i hi => h.1 i hi, fun htm => h.2 htm⟩
  refine ⟨fun i hi => absurd (allClosed_closeSocket h1 i) hi, fun _ i => allClosed_closeSocket h1 i⟩

lemma socketInv_onTimerFire {w : BridgeWorld} (ctorOk : Bool) (h : SocketInv w) :
    SocketInv (onTimerFire w ctorOk) := by
  unfold onTimerFire
  cases ht : w.bridge.reconnectTimer with
  | none => exact h
  | some d =>
      have hall : ∀ i, w.phases i = SocketPhase.closed := h.2 (by rw [ht]; exact fun hc => Option.noConfusion hc)
      apply socketInv_connect
      · intro i; simpa using hall i
      · simp

lemma socketInv_onSocketOpen {w : BridgeWorld} (helloThrow : Option String) (h : SocketInv w) :
    SocketInv (onSocketOpen w helloThrow) := by
  unfold onSocketOpen
  cases hs : w.bridge.socket with
  | none => exact h
  | some i =>
      dsimp only
      split
      · constructor
        · intro j hj
          simp only [send_snd_phases, send_snd_socket, busLog_bridge, busLog_phases,
            updateState_socket, updateState_phases] at hj ⊢
          by_cases hji : j = i
          · rw [hji]; exact hs
          · exfalso
            rw [if_neg hji] at hj
            have := h.1 j hj
            rw [hs] at this
            exact hji (Option.some.injEq _ _ ▸ this).symm
        · intro htm
          exfalso
          simp only [send_snd_timer, busLog_bridge, updateState_timer] at htm
          rename_i hconn
          have hto : w.bridge.reconnectTimer ≠ none := htm
          have := h.2 hto i
          rw [this] at hconn
          exact SocketPhase.noConfusion hconn
      · exact h

lemma socketInv_onSocketClose {w : BridgeWorld} (code : Nat) (reason : String) (h : SocketInv w) :
    SocketInv (onSocketClose w code reason) := by
  unfold onSocketClose
  cases hs : w.bridge.socket with
  | none => exact h
  | some i =>
      dsimp only
      split
      · exact h
      · apply socketInv_scheduleReconnect
        intro j
        simp only [updateState_phases, busLog_phases]
        by_cases hji : j = i
        · simp [hji]
        · simp only [if_neg hji]
          by_contra hne
          have := h.1 j hne
          rw [hs] at this
          exact hji (Option.some.injEq _ _ ▸ this).symm

lemma socketInv_onSocketError {w : BridgeWorld} (message : String) (h : SocketInv w) :
    SocketInv (onSocketError w message) := by
  unfold onSocketError
  cases w.bridge.socket with
  | none => exact h
  | some i =>
      dsimp only
      split
      · exact h
      · refine ⟨fun j hj => ?_, fun htm => ?_⟩
        · simp only [handleError_phases] at hj
          simpa using h.1 j hj
        · intro j
          simp only [handleError_timer] at htm
          simpa using h.2 htm j

lemma socketInv_onSocketMessage {w : BridgeWorld} (parsed : Option String) (raw : String)
    (h : SocketInv w) : SocketInv (onSocketMessage w parsed raw) := by
  unfold onSocketMessage
  cases w.bridge.socket with
  | none => exact h
  | some i =>
      dsimp only
      split
      · exact h
      · cases parsed with
        | none => exact ⟨fun j hj => by simpa using h.1 j (by simpa using hj), fun htm j => by simpa using h.2 (by simpa using htm) j⟩
        | some t => exact ⟨fun j hj => by simpa using h.1 j (by simpa using hj), fun htm j => by simpa using h.2 (by simpa using htm) j⟩

lemma socketInv_send {w : BridgeWorld} (t : String) (silent : Bool) (th : Option String)
    (h : SocketInv w) : SocketInv (send w t silent th).2 := by
  refine ⟨fun j hj => ?_, fun htm j => ?_⟩
  · simp only [send_snd_phases] at hj
    simpa using h.1 j hj
  · simp only [send_snd_timer] at htm
    simpa using h.2 htm j

lemma socketInv_stepBridge {w : BridgeWorld} (e : BridgeEvent) (h : SocketInv w) :
    SocketInv (stepBridge w e) := by
  cases e with
  | applyConfig cfg ctorOk => exact socketInv_applyConfiguration cfg ctorOk h
  | timerFire ctorOk => exact socketInv_onTimerFire ctorOk h
  | socketOpen helloThrow => exact socketInv_onSocketOpen helloThrow h
  | socketMessage parsed raw => exact socketInv_onSocketMessage parsed raw h
  | socketClose code reason => exact socketInv_onSocketClose code reason h
  | socketError message => exact socketInv_onSocketError message h
  | sendMessage t silent throwMsg => exact socketInv_send t silent throwMsg h
  | disposeEv => exact socketInv_disposeBridge h

lemma socketInv_foldl (events : List BridgeEvent) :
    ∀ w0 : BridgeWorld, SocketInv w0 → SocketInv (events.foldl stepBridge w0) := by
  induction events with
  | nil => exact fun w0 h0 => h0
  | cons e rest ih => exact fun w0 h0 => ih _ (socketInv_stepBridge e h0)

lemma socketInv_runBridge (events : List BridgeEvent) : SocketInv (runBridge events) :=
  socketInv_foldl events initBridgeWorld (socketInv_of_allClosed (fun _ => rfl))

def cfgOn : McpBridgeConfiguration :=
  { enabled := true, endpoint := some "ws://localhost:7070", authToken := none }

/-- C1: for every sequence of configuration changes and socket lifecycle
events, at most one live socket (constructed, neither closed nor terminated)
exists at any instant: after any event sequence, any two live socket ids
coincide.  The mechanism is that `restart` clears the pending reconnect timer
and synchronously terminates (listener removal included) the previous socket
before `connect` constructs a new one, captured by the preserved `SocketInv`. -/
theorem c1_at_most_one_live_socket (events : List BridgeEvent) (i j : Nat)
    (hi : (runBridge events).phases i ≠ SocketPhase.closed)
    (hj : (runBridge events).phases j ≠ SocketPhase.closed) : i = j := by
  have h := socketInv_runBridge events
  have h1 := h.1 i hi
  have h2 := h.1 j hj
  rw [h1] at h2
  exact Option.some.inj h2

theorem c1_at_most_one_live_socket_witness :
    (runBridge [BridgeEvent.applyConfig cfgOn true]).phases 0 ≠ SocketPhase.closed ∧
      (0 : Nat) = 0 :=
  ⟨by decide,
    c1_at_most_one_live_socket [BridgeEvent.applyConfig cfgOn true] 0 0 (by decide) (by decide)⟩

/-! ### Claim C2: send while not connected -/

def countOutbound (w : BridgeWorld) : Nat :=
  (w.bus.filter isOutboundBridgeMessage).length

@[simp] lemma isOutbound_log (m : String) (l : LogLevel) :
    isOutboundBridgeMessage (BusEvent.log m l) = false := rfl

@[simp] lemma isOutbound_bridgeState (s : BridgeState) (m : Option String) :
    isOutboundBridgeMessage (BusEvent.bridgeState s m) = false := rfl

@[simp] lemma isOutbound_outbound (t : String) :
    isOutboundBridgeMessage (BusEvent.bridgeMessage Direction.outbound t) = true := rfl

@[simp] lemma countOutbound_busLog (w : BridgeWorld) (m : String) (l : LogLevel) :
    countOutbound (busLog w m l) = countOutbound w := by
  simp [countOutbound, busLog, List.filter_append]

@[simp] lemma countOutbound_updateState (w : BridgeWorld) (s : BridgeState) (m : Option String) :
    countOutbound (updateState w s m) = countOutbound w := by
  unfold updateState
  split
  · rfl
  · simp [countOutbound, List.filter_append]

/-- C2 (amended): `send` fails — returns false, logs a warning, and publishes
no outbound bridge-message event — precisely when the bridge holds no socket
whose readyState is OPEN; the code checks the socket's readyState, not the
bridge's connection-state field.  With an OPEN socket and no
serialization/transmission exception it publishes an outbound bridge-message
event and returns true; if sending throws, the error is logged, the state
flips to Error, no outbound event is published, and false is returned. -/
theorem c2_send_spec (w : BridgeWorld) (t : String) (silent : Bool) (th : Option String) :
    (socketIsOpen w = false →
      send w t silent th =
        (false,
          busLog w "MCP bridge is not connected. Enable it in settings and wait for Ready state."
            LogLevel.warn)) ∧
    (socketIsOpen w = true → th = none →
      (send w t silent th).1 = true ∧
      countOutbound (send w t silent th).2 = countOutbound w + 1) ∧
    (∀ m, socketIsOpen w = true → th = some m →
      (send w t silent th).1 = false ∧
      (send w t silent th).2.bridge.state = BridgeState.error ∧
      countOutbound (send w t silent th).2 = countOutbound w) := by
  refine ⟨?_, ?_, ?_⟩
  · intro hno
    unfold send
    rw [if_pos hno]
  · intro hyes hth
    subst hth
    unfold send
    rw [if_neg (by simp [hyes])]
    cases silent <;> simp [countOutbound, busLog, List.filter_append]
  · intro m hyes hth
    subst hth
    unfold send
    rw [if_neg (by simp [hyes])]
    refine ⟨rfl, ?_, by simp⟩
    dsimp only
    unfold updateState
    split
    · rename_i hcond
      exact hcond.1
    · rfl

def c2Events : List BridgeEvent :=
  [BridgeEvent.applyConfig cfgOn true, BridgeEvent.socketOpen none,
   BridgeEvent.sendMessage "m" false (some "boom")]

/-- C2 counterexample: after enabling the bridge, a successful open, and one
`send` whose transmission threw (caught, state flipped to Error while the
socket stayed OPEN), the bridge's connection state is not Ready, yet a
subsequent `send` returns true and publishes an outbound bridge-message
event — contradicting the claim that every `send` while state ≠ Ready
returns false and publishes nothing. -/
theorem c2_send_counterexample :
    (runBridge c2Events).bridge.state ≠ BridgeState.ready ∧
    (send (runBridge c2Events) "m2" false none).1 = true ∧
    countOutbound (send (runBridge c2Events) "m2" false none).2 =
      countOutbound (runBridge c2Events) + 1 :=
  ⟨by decide, by decide, by decide⟩

theorem c2_send_spec_witness :
    socketIsOpen initBridgeWorld = false ∧
    send initBridgeWorld "t" false none =
      (false,
        busLog initBridgeWorld
          "MCP bridge is not connected. Enable it in settings and wait for Ready state."
          LogLevel.warn) :=
  ⟨by decide, (c2_send_spec initBridgeWorld "t" false none).1 (by decide)⟩

/-! ### Claim C3: exponential backoff -/

/-- C3: for the n-th consecutive failure (n ≥ 1) the scheduled reconnect
delay is min(1000·2^min(n,5), 30000) ms — 2s, 4s, 8s, 16s, then 30s flat from
the fifth failure on — monotone non-decreasing in n and never above 30000 ms;
`scheduleReconnect` increments the retry counter and schedules exactly that
delay, and is a no-op when the bridge is disposed or disabled. -/
theorem c3_reconnect_backoff :
    (∀ n, 1 ≤ n → reconnectDelay n = min (1000 * 2 ^ (min n 5)) 30000) ∧
    (reconnectDelay 1 = 2000 ∧ reconnectDelay 2 = 4000 ∧ reconnectDelay 3 = 8000 ∧
      reconnectDelay 4 = 16000 ∧ ∀ n, 5 ≤ n → reconnectDelay n = 30000) ∧
    (∀ m n, m ≤ n → reconnectDelay m ≤ reconnectDelay n) ∧
    (∀ n, reconnectDelay n ≤ 30000) ∧
    (∀ w : BridgeWorld, w.bridge.disposed = false → w.bridge.config.enabled = true →
      (scheduleReconnect w).bridge.retryCount = w.bridge.retryCount + 1 ∧
      (scheduleReconnect w).bridge.reconnectTimer =
        some (reconnectDelay (w.bridge.retryCount + 1))) ∧
    (∀ w : BridgeWorld, w.bridge.disposed = true ∨ w.bridge.config.enabled = false →
      scheduleReconnect w = w) := by
  refine ⟨?_, ⟨by decide, by decide, by decide, by decide, ?_⟩, ?_, ?_, ?_, ?_⟩
  · intro n _
    rfl
  · intro n hn
    have h5 : min n 5 = 5 := Nat.min_eq_right hn
    simp [reconnectDelay, MAX_BACKOFF_MS, h5]
  · intro m n hmn
    unfold reconnectDelay
    refine min_le_min ?_ (le_refl _)
    exact Nat.mul_le_mul_left 1000
      (Nat.pow_le_pow_right (by norm_num) (min_le_min hmn (le_refl 5)))
  · intro n
    unfold reconnectDelay MAX_BACKOFF_MS
    exact min_le_right _ _
  · intro w hd he
    unfold scheduleReconnect
    rw [if_neg (by simp [hd, he])]
    simp
  · intro w h
    unfold scheduleReconnect
    rw [if_pos ?_]
    rcases h with h | h
    · exact Or.inl h
    · exact Or.inr h

theorem c3_reconnect_backoff_witness :
    (1 ≤ 3 ∧ reconnectDelay 3 = min (1000 * 2 ^ (min 3 5)) 30000) ∧
    ((initBridgeWorld.bridge.disposed = true ∨ initBridgeWorld.bridge.config.enabled = false) ∧
      scheduleReconnect initBridgeWorld = initBridgeWorld) :=
  ⟨⟨by decide, c3_reconnect_backoff.1 3 (by decide)⟩,
    ⟨Or.inr rfl, c3_reconnect_backoff.2.2.2.2.2 initBridgeWorld (Or.inr rfl)⟩⟩

/-! ### ActionOrchestrator (actionOrchestrator.ts)

The three JS `Map`/`Set` fields are embedded as an insertion-ordered
association list for `actionMap` (JS `Map` preserves insertion order and
`set` on an existing key replaces in place) and as total functions for
`actionSources` (id → owning source) and `sourceIndex` (source → id set);
deleting a key versus mapping it to none/∅ is observably identical. -/

inductive Emphasis
  | primary
  | default
deriving DecidableEq

structure AssistantAction where
  id : String
  label : String
  description : Option String
  command : String
  args : Option (List String)
  emphasis : Option Emphasis
  disabled : Option Bool
  source : Option String
deriving DecidableEq

/-- A `Partial<AssistantAction>` patch as used by the in-repo callers of
`updateAction` (none of which ever patches `id`): an outer `some` means the
key is present in the updates object (possibly with an explicitly undefined
value), and spread semantics make every present key overwrite. -/
structure ActionPatch where
  label : Option String
  description : Option (Option String)
  command : Option String
  args : Option (Option (List String))
  emphasis : Option (Option Emphasis)
  disabled : Option (Option Bool)
  source : Option (Option String)
deriving DecidableEq

def applyPatch (a : AssistantAction) (p : ActionPatch) : AssistantAction :=
  { a with
    label := p.label.getD a.label,
    description := p.description.getD a.description,
    command := p.command.getD a.command,
    args := p.args.getD a.args,
    emphasis := p.emphasis.getD a.emphasis,
    disabled := p.disabled.getD a.disabled,
    source := p.source.getD a.source }

def mapSet : List (String × AssistantAction) → String → AssistantAction →
    List (String × AssistantAction)
  | [], k, v => [(k, v)]
  | p :: rest, k, v => if p.1 = k then (k, v) :: rest else p :: mapSet rest k v

def mapLookup : List (String × AssistantAction) → String → Option AssistantAction
  | [], _ => none
  | p :: rest, k => if p.1 = k then some p.2 else mapLookup rest k

structure ActionOrchestrator where
  actionMap : List (String × AssistantAction)
  actionSources : String → Option String
  sourceIndex : String → Finset String

def initOrchestrator : ActionOrchestrator :=
  { actionMap := [], actionSources := fun _ => none, sourceIndex := fun _ => ∅ }

def removeIdFromSource (o : ActionOrchestrator) (aid source : String) : ActionOrchestrator :=
  { o with
    sourceIndex := fun s =>
      if s = source then (o.sourceIndex source).erase aid else o.sourceIndex s }

/-- The eviction step at the top of `addAction`, guarded as in the source by
`existingSource && existingSource !== normalizedSource`: the prior source
must be present, truthy (a non-empty string) and different from the new
normalized source; an empty-string prior source is falsy, so eviction is
skipped for it. -/
def evictIfMoved (o : ActionOrchestrator) (aid ns : String) : ActionOrchestrator :=
  match o.actionSources aid with
  | some existingSource =>
      if existingSource ≠ "" ∧ existingSource ≠ ns then
        removeIdFromSource o aid existingSource
      else o
  | none => o

def addAction (o : ActionOrchestrator) (action : AssistantAction) (source : String) :
    ActionOrchestrator :=
  let normalizedSource := action.source.getD source
  let normalizedAction := { action with source := some normalizedSource }
  let o1 := evictIfMoved o action.id normalizedSource
  { o1 with
    actionMap := mapSet o1.actionMap action.id normalizedAction,
    actionSources := fun i =>
      if i = action.id then some normalizedSource else o1.actionSources i,
    sourceIndex := fun s =>
      if s = normalizedSource then insert action.id (o1.sourceIndex normalizedSource)
      else o1.sourceIndex s }

def removeActionsBySource (o : ActionOrchestrator) (source : String) : ActionOrchestrator :=
  let bucket := o.sourceIndex source
  if bucket = ∅ then o
  else
    { o with
      actionMap := o.actionMap.filter (fun p => decide (p.1 ∉ bucket)),
      actionSources := fun i => if i ∈ bucket then none else o.actionSources i,
      sourceIndex := fun s => if s = source then ∅ else o.sourceIndex s }

def setActionsForSource (o : ActionOrchestrator) (source : String)
    (actions : List AssistantAction) : ActionOrchestrator :=
  actions.foldl (fun acc a => addAction acc a source) (removeActionsBySource o source)

def registerAction (o : ActionOrchestrator) (action : AssistantAction) (source : String) :
    ActionOrchestrator :=
  addAction o action source

def updateAction (o : ActionOrchestrator) (aid : String) (updates : ActionPatch) :
    ActionOrchestrator :=
  match mapLookup o.actionMap aid with
  | none => o
  | some existing =>
      { o with actionMap := mapSet o.actionMap aid (applyPatch existing updates) }

def getActions (o : ActionOrchestrator) : List AssistantAction :=
  o.actionMap.map Prod.snd

/-! ### Association-list lemmas -/

lemma mapLookup_mapSet_self (m : List (String × AssistantAction)) (k : String)
    (v : AssistantAction) : mapLookup (mapSet m k v) k = some v := by
  induction m with
  | nil => simp [mapSet, mapLookup]
  | cons p rest ih =>
      by_cases h : p.1 = k
      · simp [mapSet, mapLookup, h]
      · simp [mapSet, mapLookup, h, ih]

lemma mapLookup_mapSet_ne (m : List (String × AssistantAction)) (k k' : String)
    (v : AssistantAction) (h : k' ≠ k) :
    mapLookup (mapSet m k v) k' = mapLookup m k' := by
  induction m with
  | nil =>
      rw [mapSet, mapLookup, mapLookup, mapLookup]
      rw [if_neg (fun hc : (k, v).1 = k' => h ((show k = k' from hc).symm))]
  | cons p rest ih =>
      rw [mapSet]
      by_cases hp : p.1 = k
      · rw [if_pos hp, mapLookup, mapLookup]
        rw [if_neg (fun hc : (k, v).1 = k' => h ((show k = k' from hc).symm)),
          if_neg (fun hc : p.1 = k' => h (by rw [← hc, hp]))]
      · rw [if_neg hp, mapLookup, mapLookup]
        by_cases hp' : p.1 = k'
        · rw [if_pos hp', if_pos hp']
        · rw [if_neg hp', if_neg hp', ih]

lemma keys_mapSet (m : List (String × AssistantAction)) (k : String) (v : AssistantAction) :
    (mapSet m k v).map Prod.fst =
      if k ∈ m.map Prod.fst then m.map Prod.fst else m.map Prod.fst ++ [k] := by
  induction m with
  | nil => simp [mapSet]
  | cons p rest ih =>
      rw [mapSet]
      by_cases hp : p.1 = k
      · rw [if_pos hp, List.map_cons, List.map_cons,
          if_pos (by rw [hp]; exact List.mem_cons.2 (Or.inl rfl))]
        simp [hp]
      · rw [if_neg hp, List.map_cons, List.map_cons, ih]
        by_cases hk : k ∈ rest.map Prod.fst
        · rw [if_pos hk, if_pos (List.mem_cons.2 (Or.inr hk))]
        · rw [if_neg hk,
            if_neg (fun hc => (List.mem_cons.1 hc).elim (fun he => hp he.symm) hk)]
          simp

lemma mem_keys_mapSet (m : List (String × AssistantAction)) (k a : String)
    (v : AssistantAction) (h : a ∈ (mapSet m k v).map Prod.fst) :
    a ∈ m.map Prod.fst ∨ a = k := by
  rw [keys_mapSet] at h
  by_cases hk : k ∈ m.map Prod.fst
  · rw [if_pos hk] at h
    exact Or.inl h
  · rw [if_neg hk] at h
    rcases List.mem_append.1 h with h' | h'
    · exact Or.inl h'
    · exact Or.inr (by simpa using h')

lemma keys_nodup_mapSet (m : List (String × AssistantAction)) (k : String)
    (v : AssistantAction) (h : (m.map Prod.fst).Nodup) :
    ((mapSet m k v).map Prod.fst).Nodup := by
  rw [keys_mapSet]
  by_cases hk : k ∈ m.map Prod.fst
  · rw [if_pos hk]
    exact h
  · rw [if_neg hk]
    simp [List.nodup_append, h, hk]

lemma values_id_mapSet (m : List (String × AssistantAction)) (k : String)
    (v : AssistantAction) (h : ∀ p ∈ m, p.2.id = p.1) (hv : v.id = k) :
    ∀ p ∈ mapSet m k v, p.2.id = p.1 := by
  induction m with
  | nil => simpa [mapSet] using hv
  | cons p rest ih =>
      intro q hq
      by_cases hp : p.1 = k
      · rw [mapSet, if_pos hp] at hq
        rcases List.mem_cons.1 hq with h' | h'
        · rw [h']; exact hv
        · exact h q (List.mem_cons.2 (Or.inr h'))
      · rw [mapSet, if_neg hp] at hq
        rcases List.mem_cons.1 hq with h' | h'
        · rw [h']; exact h p (List.mem_cons.2 (Or.inl rfl))
        · exact ih (fun r hr => h r (List.mem_cons.2 (Or.inr hr))) q h'

lemma isSome_mapLookup_mapSet (m : List (String × AssistantAction)) (k k' : String)
    (v : AssistantAction) :
    (mapLookup (mapSet m k v) k').isSome =
      (if k' = k then true else (mapLookup m k').isSome) := by
  by_cases h : k' = k
  · subst h
    simp [mapLookup_mapSet_self]
  · simp [h, mapLookup_mapSet_ne m k k' v h]

lemma mapLookup_filter_notMem (m : List (String × AssistantAction)) (bucket : Finset String)
    (k : String) (h : k ∈ bucket) :
    mapLookup (m.filter (fun p => decide (p.1 ∉ bucket))) k = none := by
  induction m with
  | nil => simp [mapLookup]
  | cons p rest ih =>
      by_cases hp : p.1 ∈ bucket
      · simpa [List.filter_cons, hp] using ih
      · have hpk : p.1 ≠ k := fun hc => hp (hc ▸ h)
        simpa [List.filter_cons, hp, mapLookup, hpk] using ih

lemma mapLookup_filter_mem (m : List (String × AssistantAction)) (bucket : Finset String)
    (k : String) (h : k ∉ bucket) :
    mapLookup (m.filter (fun p => decide (p.1 ∉ bucket))) k = mapLookup m k := by
  induction m with
  | nil => rfl
  | cons p rest ih =>
      by_cases hpk : p.1 = k
      · subst hpk
        simp [List.filter_cons, h, mapLookup]
      · by_cases hp : p.1 ∈ bucket
        · simpa [List.filter_cons, hp, mapLookup, hpk] using ih
        · simpa [List.filter_cons, hp, mapLookup, hpk] using ih

lemma mapLookup_entry_mem (m : List (String × AssistantAction)) (k : String)
    (v : AssistantAction) (h : mapLookup m k = some v) : (k, v) ∈ m := by
  induction m with
  | nil => simp [mapLookup] at h
  | cons p rest ih =>
      by_cases hp : p.1 = k
      · rw [mapLookup, if_pos hp] at h
        have : p = (k, v) := by
          cases p
          simp_all
        simp [this]
      · rw [mapLookup, if_neg hp] at h
        exact List.mem_cons.2 (Or.inr (ih h))

/-! ### The registry invariant (claim C9) -/

/-- Keys of `actionMap` are distinct and every stored action's `id` equals
its key; this part of the registry invariant holds unconditionally, whatever
sources the operations use. -/
def MapInv (o : ActionOrchestrator) : Prop :=
  (o.actionMap.map Prod.fst).Nodup ∧
  (∀ p ∈ o.actionMap, p.2.id = p.1)

/-- The full registry invariant: `MapInv`, the `sourceIndex` buckets mirror
`actionSources`, an id has a map entry exactly when it has an owning source,
and no id is owned by the empty-string source.  The last conjunct is needed
because the source's eviction guard treats an empty-string prior source as
falsy and skips eviction; the invariant is therefore preserved only by
operations whose normalized sources are non-empty. -/
def OrchInv (o : ActionOrchestrator) : Prop :=
  MapInv o ∧
  (∀ aid src, aid ∈ o.sourceIndex src ↔ o.actionSources aid = some src) ∧
  (∀ aid, (mapLookup o.actionMap aid).isSome = (o.actionSources aid).isSome) ∧
  (∀ aid, o.actionSources aid ≠ some "")

lemma mapInv_init : MapInv initOrchestrator := by
  exact ⟨by simp [initOrchestrator], by simp [initOrchestrator]⟩

lemma orchInv_init : OrchInv initOrchestrator := by
  refine ⟨mapInv_init, ?_, ?_, ?_⟩
  · intro aid src
    simp [initOrchestrator]
  · intro aid
    simp [initOrchestrator, mapLookup]
  · intro aid
    simp [initOrchestrator]

@[simp] lemma evictIfMoved_actionMap (o : ActionOrchestrator) (aid ns : String) :
    (evictIfMoved o aid ns).actionMap = o.actionMap := by
  unfold evictIfMoved removeIdFromSource
  cases o.actionSources aid
  · rfl
  · dsimp only
    split <;> rfl

@[simp] lemma evictIfMoved_actionSources (o : ActionOrchestrator) (aid ns : String) :
    (evictIfMoved o aid ns).actionSources = o.actionSources := by
  unfold evictIfMoved removeIdFromSource
  cases o.actionSources aid
  · rfl
  · dsimp only
    split <;> rfl

lemma evictIfMoved_mem_other (o : ActionOrchestrator) (aid ns a s : String) (h : a ≠ aid) :
    (a ∈ (evictIfMoved o aid ns).sourceIndex s ↔ a ∈ o.sourceIndex s) := by
  unfold evictIfMoved removeIdFromSource
  cases o.actionSources aid with
  | none => exact Iff.rfl
  | some es =>
      dsimp only
      split
      · dsimp only
        by_cases hs : s = es
        · subst hs
          simp [Finset.mem_erase, h]
        · simp [hs]
      · exact Iff.rfl

lemma evictIfMoved_not_mem (o : ActionOrchestrator) (aid ns s : String)
    (h : OrchInv o) (hs : s ≠ ns) : aid ∉ (evictIfMoved o aid ns).sourceIndex s := by
  unfold evictIfMoved removeIdFromSource
  cases hsrc : o.actionSources aid with
  | none =>
      intro hmem
      have := (h.2.1 aid s).1 hmem
      rw [hsrc] at this
      exact Option.noConfusion this
  | some es =>
      have hesne : es ≠ "" := by
        intro hc
        exact (h.2.2.2 aid) (by rw [hsrc, hc])
      dsimp only
      split
      · dsimp only
        by_cases hse : s = es
        · subst hse
          simp [Finset.mem_erase]
        · intro hmem
          rw [if_neg hse] at hmem
          have := (h.2.1 aid s).1 hmem
          rw [hsrc] at this
          exact hse (Option.some.inj this).symm
      · rename_i hne
        have hes : es = ns := by
          by_contra hc
          exact hne ⟨hesne, hc⟩
        intro hmem
        have := (h.2.1 aid s).1 hmem
        rw [hsrc] at this
        exact hs ((Option.some.inj this) ▸ hes)

lemma mapInv_addAction (o : ActionOrchestrator) (a : AssistantAction) (src : String)
    (h : MapInv o) : MapInv (addAction o a src) := by
  unfold addAction
  refine ⟨?_, ?_⟩
  · dsimp only
    rw [evictIfMoved_actionMap]
    exact keys_nodup_mapSet _ _ _ h.1
  · dsimp only
    rw [evictIfMoved_actionMap]
    exact values_id_mapSet _ _ _ h.2 rfl

lemma orchInv_addAction (o : ActionOrchestrator) (a : AssistantAction) (src : String)
    (h : OrchInv o) (hns : a.source.getD src ≠ "") : OrchInv (addAction o a src) := by
  unfold addAction
  refine ⟨⟨?_, ?_⟩, ?_, ?_, ?_⟩
  · dsimp only
    rw [evictIfMoved_actionMap]
    exact keys_nodup_mapSet _ _ _ h.1.1
  · dsimp only
    rw [evictIfMoved_actionMap]
    exact values_id_mapSet _ _ _ h.1.2 rfl
  · intro aid s
    dsimp only
    by_cases haid : aid = a.id
    · subst haid
      rw [if_pos rfl]
      by_cases hs : s = a.source.getD src
      · subst hs
        simp
      · rw [if_neg hs]
        constructor
        · intro hmem
          exact absurd hmem (evictIfMoved_not_mem o a.id _ s h hs)
        · intro heq
          exact absurd (Option.some.inj heq).symm hs
    · rw [if_neg haid]
      rw [evictIfMoved_actionSources]
      by_cases hs : s = a.source.getD src
      · subst hs
        rw [if_pos rfl, Finset.mem_insert]
        rw [evictIfMoved_mem_other o a.id _ aid _ haid]
        constructor
        · intro hc
          rcases hc with hc | hc
          · exact absurd hc haid
          · exact (h.2.1 aid _).1 hc
        · intro hc
          exact Or.inr ((h.2.1 aid _).2 hc)
      · rw [if_neg hs]
        rw [evictIfMoved_mem_other o a.id _ aid s haid]
        exact h.2.1 aid s
  · intro aid
    dsimp only
    rw [evictIfMoved_actionMap, evictIfMoved_actionSources]
    by_cases haid : aid = a.id
    · subst haid
      rw [mapLookup_mapSet_self, if_pos rfl]
      rfl
    · rw [mapLookup_mapSet_ne _ _ _ _ haid, if_neg haid]
      exact h.2.2.1 aid
  · intro aid
    dsimp only
    rw [evictIfMoved_actionSources]
    by_cases haid : aid = a.id
    · rw [if_pos haid]
      intro hc
      exact hns (Option.some.inj hc)
    · rw [if_neg haid]
      exact h.2.2.2 aid

lemma mapInv_removeActionsBySource (o : ActionOrchestrator) (src : String)
    (h : MapInv o) : MapInv (removeActionsBySource o src) := by
  unfold removeActionsBySource
  dsimp only
  split
  · exact h
  · refine ⟨?_, ?_⟩
    · exact List.Nodup.sublist (List.Sublist.map Prod.fst (List.filter_sublist _)) h.1
    · intro p hp
      exact h.2 p (List.mem_of_mem_filter hp)

lemma orchInv_removeActionsBySource (o : ActionOrchestrator) (src : String)
    (h : OrchInv o) : OrchInv (removeActionsBySource o src) := by
  unfold removeActionsBySource
  dsimp only
  split
  · exact h
  · refine ⟨⟨?_, ?_⟩, ?_, ?_, ?_⟩
    · exact List.Nodup.sublist (List.Sublist.map Prod.fst (List.filter_sublist _)) h.1.1
    · intro p hp
      exact h.1.2 p (List.mem_of_mem_filter hp)
    · intro aid s
      dsimp only
      by_cases hs : s = src
      · subst hs
        rw [if_pos rfl]
        constructor
        · intro hmem
          exact absurd hmem (Finset.not_mem_empty aid)
        · intro heq
          by_cases hb : aid ∈ o.sourceIndex s
          · rw [if_pos hb] at heq
            exact Option.noConfusion heq
          · rw [if_neg hb] at heq
            exact absurd ((h.2.1 aid s).2 heq) hb
      · rw [if_neg hs]
        by_cases hb : aid ∈ o.sourceIndex src
        · rw [if_pos hb]
          constructor
          · intro hmem
            have e1 := (h.2.1 aid s).1 hmem
            have e2 := (h.2.1 aid src).1 hb
            rw [e1] at e2
            exact absurd (Option.some.inj e2) hs
          · intro heq
            exact Option.noConfusion heq
        · rw [if_neg hb]
          exact h.2.1 aid s
    · intro aid
      dsimp only
      by_cases hb : aid ∈ o.sourceIndex src
      · rw [mapLookup_filter_notMem _ _ _ hb, if_pos hb]
        rfl
      · rw [mapLookup_filter_mem _ _ _ hb, if_neg hb]
        exact h.2.2.1 aid
    · intro aid
      dsimp only
      by_cases hb : aid ∈ o.sourceIndex src
      · rw [if_pos hb]
        intro hc
        exact Option.noConfusion hc
      · rw [if_neg hb]
        exact h.2.2.2 aid

lemma mapInv_updateAction (o : ActionOrchestrator) (aid : String) (p : ActionPatch)
    (h : MapInv o) : MapInv (updateAction o aid p) := by
  unfold updateAction
  cases hex : mapLookup o.actionMap aid with
  | none => exact h
  | some existing =>
      dsimp only
      have hid : existing.id = aid :=
        h.2 (aid, existing) (mapLookup_entry_mem _ _ _ hex)
      refine ⟨keys_nodup_mapSet _ _ _ h.1, ?_⟩
      refine values_id_mapSet _ _ _ h.2 ?_
      show existing.id = aid
      exact hid

lemma orchInv_updateAction (o : ActionOrchestrator) (aid : String) (p : ActionPatch)
    (h : OrchInv o) : OrchInv (updateAction o aid p) := by
  unfold updateAction
  cases hex : mapLookup o.actionMap aid with
  | none => exact h
  | some existing =>
      dsimp only
      have hid : existing.id = aid :=
        h.1.2 (aid, existing) (mapLookup_entry_mem _ _ _ hex)
      refine ⟨⟨keys_nodup_mapSet _ _ _ h.1.1, ?_⟩, h.2.1, ?_, h.2.2.2⟩
      · refine values_id_mapSet _ _ _ h.1.2 ?_
        show existing.id = aid
        exact hid
      · intro k
        by_cases hk : k = aid
        · subst hk
          rw [mapLookup_mapSet_self]
          have h4 := h.2.2.1 k
          rw [hex] at h4
          exact h4
        · rw [mapLookup_mapSet_ne _ _ _ _ hk]
          exact h.2.2.1 k

lemma mapInv_foldl_add (actions : List AssistantAction) (src : String) :
    ∀ o : ActionOrchestrator, MapInv o →
      MapInv (actions.foldl (fun acc a => addAction acc a src) o) := by
  induction actions with
  | nil => exact fun o h => h
  | cons a rest ih => exact fun o h => ih _ (mapInv_addAction o a src h)

lemma mapInv_setActionsForSource (o : ActionOrchestrator) (src : String)
    (actions : List AssistantAction) (h : MapInv o) :
    MapInv (setActionsForSource o src actions) :=
  mapInv_foldl_add actions src _ (mapInv_removeActionsBySource o src h)

lemma orchInv_foldl_add (actions : List AssistantAction) (src : String) :
    ∀ o : ActionOrchestrator, (∀ a ∈ actions, a.source.getD src ≠ "") → OrchInv o →
      OrchInv (actions.foldl (fun acc a => addAction acc a src) o) := by
  induction actions with
  | nil => exact fun o _ h => h
  | cons a rest ih =>
      intro o hv h
      exact ih _ (fun q hq => hv q (List.mem_cons.2 (Or.inr hq)))
        (orchInv_addAction o a src h (hv a (List.mem_cons.2 (Or.inl rfl))))

lemma orchInv_setActionsForSource (o : ActionOrchestrator) (src : String)
    (actions : List AssistantAction) (hv : ∀ a ∈ actions, a.source.getD src ≠ "")
    (h : OrchInv o) : OrchInv (setActionsForSource o src actions) :=
  orchInv_foldl_add actions src _ hv (orchInv_removeActionsBySource o src h)

inductive OrchOp
  | setOp (source : String) (actions : List AssistantAction)
  | registerOp (action : AssistantAction) (source : String)
  | updateOp (aid : String) (patch : ActionPatch)

def applyOrchOp (o : ActionOrchestrator) : OrchOp → ActionOrchestrator
  | OrchOp.setOp s actions => setActionsForSource o s actions
  | OrchOp.registerOp a s => registerAction o a s
  | OrchOp.updateOp aid p => updateAction o aid p

def runOrchOps (ops : List OrchOp) : ActionOrchestrator :=
  ops.foldl applyOrchOp initOrchestrator

/-- The operation registers only under truthy normalized sources: no action
ends up with the empty string as its owning source. -/
def opSourcesTruthy : OrchOp → Prop
  | OrchOp.setOp s actions => ∀ a ∈ actions, a.source.getD s ≠ ""
  | OrchOp.registerOp a s => a.source.getD s ≠ ""
  | OrchOp.updateOp _ _ => True

lemma mapInv_applyOrchOp (o : ActionOrchestrator) (op : OrchOp) (h : MapInv o) :
    MapInv (applyOrchOp o op) := by
  cases op with
  | setOp s actions => exact mapInv_setActionsForSource o s actions h
  | registerOp a s => exact mapInv_addAction o a s h
  | updateOp aid p => exact mapInv_updateAction o aid p h

lemma mapInv_runOrchOps (ops : List OrchOp) : MapInv (runOrchOps ops) := by
  unfold runOrchOps
  have hgen : ∀ o : ActionOrchestrator, MapInv o → MapInv (ops.foldl applyOrchOp o) := by
    induction ops with
    | nil => exact fun o h => h
    | cons op rest ih => exact fun o h => ih _ (mapInv_applyOrchOp o op h)
  exact hgen _ mapInv_init

lemma orchInv_applyOrchOp (o : ActionOrchestrator) (op : OrchOp) (h : OrchInv o)
    (hv : opSourcesTruthy op) : OrchInv (applyOrchOp o op) := by
  cases op with
  | setOp s actions => exact orchInv_setActionsForSource o s actions hv h
  | registerOp a s => exact orchInv_addAction o a s h hv
  | updateOp aid p => exact orchInv_updateAction o aid p h

lemma orchInv_runOrchOps (ops : List OrchOp) (hv : ∀ op ∈ ops, opSourcesTruthy op) :
    OrchInv (runOrchOps ops) := by
  unfold runOrchOps
  have hgen : ∀ (l : List OrchOp) (o : ActionOrchestrator),
      (∀ op ∈ l, opSourcesTruthy op) → OrchInv o → OrchInv (l.foldl applyOrchOp o) := by
    intro l
    induction l with
    | nil => exact fun o _ h => h
    | cons op rest ih =>
        intro o hvl h
        exact ih _ (fun q hq => hvl q (List.mem_cons.2 (Or.inr hq)))
          (orchInv_applyOrchOp o op h (hvl op (List.mem_cons.2 (Or.inl rfl))))
  exact hgen ops _ hv orchInv_init

lemma getActions_ids_nodup (o : ActionOrchestrator) (h : MapInv o) :
    ((getActions o).map (fun a => a.id)).Nodup := by
  have heq : (getActions o).map (fun a => a.id) = o.actionMap.map Prod.fst := by
    unfold getActions
    rw [List.map_map]
    exact List.map_congr_left (fun p hp => h.2 p hp)
  rw [heq]
  exact h.1

lemma sourceIndex_unique (o : ActionOrchestrator) (h : OrchInv o) (aid s1 s2 : String)
    (h1 : aid ∈ o.sourceIndex s1) (h2 : aid ∈ o.sourceIndex s2) : s1 = s2 := by
  have e1 := (h.2.1 aid s1).1 h1
  have e2 := (h.2.1 aid s2).1 h2
  rw [e1] at e2
  exact Option.some.inj e2

lemma addAction_lookup_self (o : ActionOrchestrator) (a : AssistantAction) (src : String) :
    mapLookup (addAction o a src).actionMap a.id =
      some { a with source := some (a.source.getD src) } := by
  unfold addAction
  dsimp only
  exact mapLookup_mapSet_self _ _ _

lemma addAction_sources_self (o : ActionOrchestrator) (a : AssistantAction) (src : String) :
    (addAction o a src).actionSources a.id = some (a.source.getD src) := by
  unfold addAction
  dsimp only
  rw [if_pos rfl]

lemma addAction_notMem_other (o : ActionOrchestrator) (a : AssistantAction) (src s : String)
    (h : OrchInv o) (hs : s ≠ a.source.getD src) :
    a.id ∉ (addAction o a src).sourceIndex s := by
  unfold addAction
  dsimp only
  rw [if_neg hs]
  exact evictIfMoved_not_mem o a.id _ s h hs

def actA : AssistantAction :=
  { id := "x", label := "a", description := none, command := "cmdA", args := none,
    emphasis := none, disabled := none, source := none }

def actB : AssistantAction :=
  { id := "x", label := "b", description := none, command := "cmdB", args := none,
    emphasis := none, disabled := none, source := none }

/-- C9 counterexample: the eviction guard
`existingSource && existingSource !== normalizedSource` treats an
empty-string prior source as falsy and skips eviction, so registering id "x"
under source "" and then under source "B" leaves "x" in both the "" bucket
and the "B" bucket — the id belongs to two sources at once and is not evicted
from its previous source's bucket. -/
theorem c9_empty_source_counterexample :
    "x" ∈ (registerAction (registerAction initOrchestrator actA "") actB "B").sourceIndex
      "" ∧
    "x" ∈ (registerAction (registerAction initOrchestrator actA "") actB "B").sourceIndex
      "B" ∧
    ("" : String) ≠ "B" :=
  ⟨by decide, by decide, by decide⟩

/-- C9 (amended): `getActions()` contains no duplicate ids at every reachable
registry state, unconditionally.  The exclusive-ownership half holds for
truthy sources only, because the eviction guard skips a falsy (empty-string)
prior source: at every state reachable through operations whose normalized
sources are non-empty, each id belongs to at most one source bucket; and
registering X under a non-empty A and then under a non-empty B ≠ A leaves
exactly one entry for X — owned by B, present in B's bucket and absent from
A's. -/
theorem c9_exclusive_source_ownership :
    (∀ ops : List OrchOp,
      ((getActions (runOrchOps ops)).map (fun a => a.id)).Nodup) ∧
    (∀ ops : List OrchOp, (∀ op ∈ ops, opSourcesTruthy op) →
      ∀ aid s1 s2, aid ∈ (runOrchOps ops).sourceIndex s1 →
        aid ∈ (runOrchOps ops).sourceIndex s2 → s1 = s2) ∧
    (∀ (o : ActionOrchestrator) (a b : AssistantAction) (A B X : String),
      OrchInv o → a.source = none → b.source = none → a.id = X → b.id = X →
      A ≠ "" → B ≠ "" → A ≠ B →
      mapLookup (registerAction (registerAction o a A) b B).actionMap X =
        some { b with source := some B } ∧
      (registerAction (registerAction o a A) b B).actionSources X = some B ∧
      X ∈ (registerAction (registerAction o a A) b B).sourceIndex B ∧
      X ∉ (registerAction (registerAction o a A) b B).sourceIndex A ∧
      ((registerAction (registerAction o a A) b B).actionMap.map Prod.fst).count X = 1) := by
  refine ⟨?_, ?_, ?_⟩
  · intro ops
    exact getActions_ids_nodup _ (mapInv_runOrchOps ops)
  · intro ops hv
    exact sourceIndex_unique _ (orchInv_runOrchOps ops hv)
  · intro o a b A B X hinv hsa hsb hida hidb hA hB hAB
    subst hidb
    have hgetA : a.source.getD A = A := by rw [hsa]; rfl
    have hgetB : b.source.getD B = B := by rw [hsb]; rfl
    have hinv1 : OrchInv (registerAction o a A) :=
      orchInv_addAction o a A hinv (by rw [hgetA]; exact hA)
    have hinv2 : OrchInv (registerAction (registerAction o a A) b B) :=
      orchInv_addAction _ b B hinv1 (by rw [hgetB]; exact hB)
    have hlook : mapLookup (registerAction (registerAction o a A) b B).actionMap b.id =
        some { b with source := some B } := by
      have := addAction_lookup_self (registerAction o a A) b B
      rwa [hgetB] at this
    have hsrc : (registerAction (registerAction o a A) b B).actionSources b.id = some B := by
      have := addAction_sources_self (registerAction o a A) b B
      rwa [hgetB] at this
    refine ⟨hlook, hsrc, (hinv2.2.1 b.id B).2 hsrc, ?_, ?_⟩
    · have := addAction_notMem_other (registerAction o a A) b B A hinv1 (by rw [hgetB]; exact hAB)
      exact this
    · have hmem : b.id ∈ (registerAction (registerAction o a A) b B).actionMap.map Prod.fst :=
        List.mem_map_of_mem Prod.fst (mapLookup_entry_mem _ _ _ hlook)
      exact List.count_eq_one_of_mem hinv2.1.1 hmem

theorem c9_exclusive_source_ownership_witness :
    OrchInv initOrchestrator ∧ ("A" : String) ≠ "" ∧ ("B" : String) ≠ "" ∧
    mapLookup (registerAction (registerAction initOrchestrator actA "A") actB "B").actionMap
      "x" = some { actB with source := some "B" } ∧
    "x" ∉ (registerAction (registerAction initOrchestrator actA "A") actB "B").sourceIndex
      "A" :=
  ⟨orchInv_init, by decide, by decide,
    (c9_exclusive_source_ownership.2.2 initOrchestrator actA actB "A" "B" "x" orchInv_init
      rfl rfl rfl rfl (by decide) (by decide) (by decide)).1,
    (c9_exclusive_source_ownership.2.2 initOrchestrator actA actB "A" "B" "x" orchInv_init
      rfl rfl rfl rfl (by decide) (by decide) (by decide)).2.2.2.1⟩

/-! ### McpCoordinator (mcpCoordinator.ts)

The coordinator state embeds `remoteActions` (a JS `Map` keyed by remote id,
as a total function), the `inflightActions` set, the orchestrator it drives,
the bus events it publishes, plus two observability traces: `completions`
records every `completeAction(id, status, message)` call, and
`terminalLines` records every line written to the task terminal. -/

inductive CompletionStatus
  | success
  | error
deriving DecidableEq

structure McpRemoteActionDescriptor where
  id : String
  label : String
  description : Option String
  emphasis : Option Emphasis
  disabled : Option Bool
  sendContextOnInvoke : Option Bool
deriving DecidableEq

structure RemoteActionRecord where
  descriptor : McpRemoteActionDescriptor
  clientId : String
deriving DecidableEq

structure McpRegisterActionsPayload where
  actions : Option (List McpRemoteActionDescriptor)
deriving DecidableEq

structure McpActionStateUpdatePayload where
  actionId : String
  disabled : Option Bool
  label : Option String
  description : Option String
  emphasis : Option Emphasis
deriving DecidableEq

structure McpActionCompletePayload where
  actionId : String
  status : Option CompletionStatus
  message : Option String
deriving DecidableEq

structure McpTaskSequenceEntry where
  command : String
  args : Option (List String)
deriving DecidableEq

inductive TaskMode
  | terminal
  | process
deriving DecidableEq

structure McpTaskRequestPayload where
  actionId : Option String
  command : Option String
  args : Option (List String)
  cwd : Option String
  terminalName : Option String
  mode : Option TaskMode
  sequence : Option (List McpTaskSequenceEntry)
deriving DecidableEq

structure McpCoordinator where
  remoteActions : String → Option RemoteActionRecord
  inflightActions : Finset String
  orchestrator : ActionOrchestrator
  bus : List BusEvent
  completions : List (String × CompletionStatus × Option String)
  terminalLines : List String

def initCoordinator : McpCoordinator :=
  { remoteActions := fun _ => none, inflightActions := ∅, orchestrator := initOrchestrator,
    bus := [], completions := [], terminalLines := [] }

def busLogC (s : McpCoordinator) (message : String) (level : LogLevel) : McpCoordinator :=
  { s with bus := s.bus ++ [BusEvent.log message level] }

def publishStatusC (s : McpCoordinator) (status : AssistantStatus) (lastMessage : Option String) :
    McpCoordinator :=
  { s with bus := s.bus ++ [BusEvent.status status lastMessage] }

/-- `s.startsWith p`, embedded on the underlying character lists so that it
evaluates inside the kernel. -/
def strStartsWith (s p : String) : Bool :=
  p.data.isPrefixOf s.data

def toClientActionId (remoteId : String) : String :=
  if strStartsWith remoteId "mcp:" then remoteId else "mcp:" ++ remoteId

def updateAssistantStatus (s : McpCoordinator) (hasError : Bool) : McpCoordinator :=
  if 0 < s.inflightActions.card ∧ hasError = false then
    publishStatusC s AssistantStatus.processing
      (some ("Running " ++ toString s.inflightActions.card ++ " MCP action(s)..."))
  else if hasError = true then
    publishStatusC s AssistantStatus.error (some "Latest MCP action reported an error.")
  else
    publishStatusC s AssistantStatus.idle (some "Assistant ready.")

def completeAction (s : McpCoordinator) (actionId : String) (status : CompletionStatus)
    (message : Option String) : McpCoordinator :=
  let s1 := { s with
    inflightActions := s.inflightActions.erase actionId,
    completions := s.completions ++ [(actionId, status, message)] }
  let s2 := updateAssistantStatus s1 (status = CompletionStatus.error)
  match message with
  | some m =>
      busLogC s2 m
        (if status = CompletionStatus.error then LogLevel.error else LogLevel.info)
  | none => s2

def handleActionComplete (s : McpCoordinator) (payload : Option McpActionCompletePayload) :
    McpCoordinator :=
  match payload with
  | none => s
  | some p =>
      if p.actionId = "" then s
      else completeAction s p.actionId (p.status.getD CompletionStatus.success) p.message

def handleRegisterActions (s : McpCoordinator) (payload : Option McpRegisterActionsPayload) :
    McpCoordinator :=
  match payload with
  | none => busLogC s "MCP register actions payload missing actions array." LogLevel.warn
  | some p =>
      match p.actions with
      | none => busLogC s "MCP register actions payload missing actions array." LogLevel.warn
      | some descriptors =>
          let s1 := { s with remoteActions := fun _ => none }
          let s2 := descriptors.foldl
            (fun acc d =>
              { acc with
                remoteActions := fun rid =>
                  if rid = d.id then
                    some { descriptor := d, clientId := toClientActionId d.id }
                  else acc.remoteActions rid })
            s1
          let mapped := descriptors.map (fun d =>
            { id := toClientActionId d.id, label := d.label, description := d.description,
              command := "genRefactorer.assistant.runMcpAction", args := some [d.id],
              emphasis := d.emphasis, disabled := d.disabled,
              source := some "mcp" : AssistantAction })
          let s3 := { s2 with orchestrator := setActionsForSource s2.orchestrator "mcp" mapped }
          busLogC s3 ("Registered " ++ toString mapped.length ++ " MCP action(s).")
            LogLevel.info

def handleActionStateUpdate (s : McpCoordinator) (payload : Option McpActionStateUpdatePayload) :
    McpCoordinator :=
  match payload with
  | none => s
  | some p =>
      if p.actionId = "" then s
      else
        match s.remoteActions p.actionId with
        | none => s
        | some mapping =>
            { s with
              orchestrator := updateAction s.orchestrator mapping.clientId
                { label := some (p.label.getD mapping.descriptor.label),
                  description := some (p.description.or mapping.descriptor.description),
                  command := none,
                  args := none,
                  emphasis := some (p.emphasis.or mapping.descriptor.emphasis),
                  disabled := some p.disabled,
                  source := some (some "mcp") } }

def clearRemoteActions (s : McpCoordinator) : McpCoordinator :=
  let s1 := { s with remoteActions := fun _ => none }
  let s2 := { s1 with orchestrator := setActionsForSource s1.orchestrator "mcp" [] }
  busLogC s2 "Cleared MCP actions due to bridge disconnect." LogLevel.info

def onBridgeStateChanged (s : McpCoordinator) (st : BridgeState) : McpCoordinator :=
  if st = BridgeState.disconnected ∨ st = BridgeState.error then clearRemoteActions s else s

/-! ### Task execution (terminal and process modes)

A spawned child process is embedded by its observable outcome: the non-empty
trimmed lines it emitted on stdout and stderr, and either an exit code or a
spawn error message. -/

inductive ProcResult
  | exited (code : Int)
  | failed (message : String)
deriving DecidableEq

structure ProcOutcome where
  stdoutLines : List String
  stderrLines : List String
  result : ProcResult
deriving DecidableEq

def normalizeTaskSequence (payload : McpTaskRequestPayload) : List McpTaskSequenceEntry :=
  match payload.sequence with
  | some (e :: rest) =>
      (e :: rest).map (fun entry => { command := entry.command, args := entry.args })
  | _ =>
      match payload.command with
      | some c => [{ command := c, args := payload.args }]
      | none => []

def cdCommand (path : String) : String :=
  "cd \"" ++ ((path.replace "`" "``").replace "\"" "\"\"") ++ "\""

def runTerminalCommands (s : McpCoordinator) (sequence : List McpTaskSequenceEntry)
    (payload : McpTaskRequestPayload) : McpCoordinator :=
  let s1 :=
    match payload.cwd with
    | some c => { s with terminalLines := s.terminalLines ++ [cdCommand c] }
    | none => s
  let s2 := sequence.foldl
    (fun acc entry =>
      let commandText :=
        (String.intercalate " " (entry.command :: entry.args.getD [])).trim
      let acc1 := { acc with terminalLines := acc.terminalLines ++ [commandText] }
      busLogC acc1 ("Running MCP task in terminal: " ++ commandText) LogLevel.info)
    s1
  match payload.actionId with
  | some aid =>
      completeAction s2 aid CompletionStatus.success
        (some ("Launched " ++ toString sequence.length ++ " terminal command(s)."))
  | none => s2

/-- The log entries produced by one `spawnProcess` call: the start line, then
one entry per non-empty stdout line (info) and stderr line (warn). -/
def stepLogs (command : String) (args : List String) (outcome : ProcOutcome) : List BusEvent :=
  let renderedArgs := if args.length = 0 then "" else " " ++ String.intercalate " " args
  [BusEvent.log ("Running MCP task (process): " ++ command ++ renderedArgs) LogLevel.info] ++
    outcome.stdoutLines.map
      (fun line => BusEvent.log ("[" ++ command ++ " stdout] " ++ line) LogLevel.info) ++
    outcome.stderrLines.map
      (fun line => BusEvent.log ("[" ++ command ++ " stderr] " ++ line) LogLevel.warn)

/-- The rejection message of one `spawnProcess` call, none on success. -/
def stepError (command : String) (outcome : ProcOutcome) : Option String :=
  match outcome.result with
  | ProcResult.exited code =>
      if code = 0 then none else some (command ++ " exited with code " ++ toString code)
  | ProcResult.failed message => some message

def spawnProcessC (s : McpCoordinator) (command : String) (args : List String)
    (outcome : ProcOutcome) : McpCoordinator × Option String :=
  ({ s with bus := s.bus ++ stepLogs command args outcome }, stepError command outcome)

def runProcessLoop : McpCoordinator → List (McpTaskSequenceEntry × ProcOutcome) →
    McpCoordinator × Option String
  | s, [] => (s, none)
  | s, (entry, outcome) :: rest =>
      match spawnProcessC s entry.command (entry.args.getD []) outcome with
      | (s1, none) => runProcessLoop s1 rest
      | (s1, some m) => (s1, some m)

def runProcessCommands (s : McpCoordinator) (seq : List (McpTaskSequenceEntry × ProcOutcome))
    (actionId : Option String) : McpCoordinator :=
  match runProcessLoop s seq with
  | (s1, none) =>
      match actionId with
      | some aid =>
          completeAction s1 aid CompletionStatus.success
            (some ("Completed " ++ toString seq.length ++ " command(s)."))
      | none => s1
  | (s1, some m) =>
      let s2 := busLogC s1 ("MCP task failed: " ++ m) LogLevel.error
      match actionId with
      | some aid => completeAction s2 aid CompletionStatus.error (some m)
      | none => s2

def handleTaskRequest (s : McpCoordinator) (payload : Option McpTaskRequestPayload)
    (outcomes : List ProcOutcome) : McpCoordinator :=
  match payload with
  | none => busLogC s "Received empty MCP task payload." LogLevel.warn
  | some p =>
      let mode := p.mode.getD TaskMode.terminal
      let sequence := normalizeTaskSequence p
      if sequence.length = 0 then busLogC s "MCP task request missing command(s)." LogLevel.warn
      else if mode = TaskMode.process then
        runProcessCommands s (sequence.zip outcomes) p.actionId
      else runTerminalCommands s sequence p

/-! ### completeAction lemmas (claims C5 and C10) -/

@[simp] lemma busLogC_inflight (s : McpCoordinator) (m : String) (l : LogLevel) :
    (busLogC s m l).inflightActions = s.inflightActions := rfl

@[simp] lemma busLogC_completions (s : McpCoordinator) (m : String) (l : LogLevel) :
    (busLogC s m l).completions = s.completions := rfl

@[simp] lemma busLogC_orchestrator (s : McpCoordinator) (m : String) (l : LogLevel) :
    (busLogC s m l).orchestrator = s.orchestrator := rfl

@[simp] lemma busLogC_remoteActions (s : McpCoordinator) (m : String) (l : LogLevel) :
    (busLogC s m l).remoteActions = s.remoteActions := rfl

@[simp] lemma busLogC_bus (s : McpCoordinator) (m : String) (l : LogLevel) :
    (busLogC s m l).bus = s.bus ++ [BusEvent.log m l] := rfl

/-- The status event `updateAssistantStatus` publishes, as a function of the
in-flight count and the error flag. -/
def statusEventOf (count : Nat) (hasError : Bool) : BusEvent :=
  if 0 < count ∧ hasError = false then
    BusEvent.status AssistantStatus.processing
      (some ("Running " ++ toString count ++ " MCP action(s)..."))
  else if hasError = true then
    BusEvent.status AssistantStatus.error (some "Latest MCP action reported an error.")
  else
    BusEvent.status AssistantStatus.idle (some "Assistant ready.")

@[simp] lemma updateAssistantStatus_inflight (s : McpCoordinator) (e : Bool) :
    (updateAssistantStatus s e).inflightActions = s.inflightActions := by
  unfold updateAssistantStatus publishStatusC
  split
  · rfl
  · split <;> rfl

@[simp] lemma updateAssistantStatus_completions (s : McpCoordinator) (e : Bool) :
    (updateAssistantStatus s e).completions = s.completions := by
  unfold updateAssistantStatus publishStatusC
  split
  · rfl
  · split <;> rfl

@[simp] lemma updateAssistantStatus_orchestrator (s : McpCoordinator) (e : Bool) :
    (updateAssistantStatus s e).orchestrator = s.orchestrator := by
  unfold updateAssistantStatus publishStatusC
  split
  · rfl
  · split <;> rfl

@[simp] lemma updateAssistantStatus_remoteActions (s : McpCoordinator) (e : Bool) :
    (updateAssistantStatus s e).remoteActions = s.remoteActions := by
  unfold updateAssistantStatus publishStatusC
  split
  · rfl
  · split <;> rfl

lemma updateAssistantStatus_bus (s : McpCoordinator) (e : Bool) :
    (updateAssistantStatus s e).bus = s.bus ++ [statusEventOf s.inflightActions.card e] := by
  unfold updateAssistantStatus statusEventOf publishStatusC
  split
  · rfl
  · split <;> rfl

/-- The trailing log entry appended by `completeAction` when a message is
supplied. -/
def completionLogTail (st : CompletionStatus) (m : Option String) : List BusEvent :=
  match m with
  | some msg =>
      [BusEvent.log msg
        (if st = CompletionStatus.error then LogLevel.error else LogLevel.info)]
  | none => []

lemma completeAction_inflight (s : McpCoordinator) (aid : String) (st : CompletionStatus)
    (m : Option String) :
    (completeAction s aid st m).inflightActions = s.inflightActions.erase aid := by
  unfold completeAction
  cases m <;> simp

lemma completeAction_completions (s : McpCoordinator) (aid : String) (st : CompletionStatus)
    (m : Option String) :
    (completeAction s aid st m).completions = s.completions ++ [(aid, st, m)] := by
  unfold completeAction
  cases m <;> simp

lemma completeAction_orchestrator (s : McpCoordinator) (aid : String) (st : CompletionStatus)
    (m : Option String) :
    (completeAction s aid st m).orchestrator = s.orchestrator := by
  unfold completeAction
  cases m <;> simp

lemma completeAction_remoteActions (s : McpCoordinator) (aid : String) (st : CompletionStatus)
    (m : Option String) :
    (completeAction s aid st m).remoteActions = s.remoteActions := by
  unfold completeAction
  cases m <;> simp

lemma completeAction_bus (s : McpCoordinator) (aid : String) (st : CompletionStatus)
    (m : Option String) :
    (completeAction s aid st m).bus =
      s.bus ++
        [statusEventOf (s.inflightActions.erase aid).card
          (decide (st = CompletionStatus.error))] ++
        completionLogTail st m := by
  unfold completeAction
  cases m with
  | none =>
      dsimp only
      rw [updateAssistantStatus_bus]
      simp [completionLogTail]
  | some msg =>
      dsimp only
      rw [busLogC_bus, updateAssistantStatus_bus]
      simp [completionLogTail]

lemma statusEventOf_error (count : Nat) :
    statusEventOf count true =
      BusEvent.status AssistantStatus.error (some "Latest MCP action reported an error.") := by
  unfold statusEventOf
  rw [if_neg (by simp), if_pos rfl]

lemma statusEventOf_processing (count : Nat) (h : 0 < count) :
    statusEventOf count false =
      BusEvent.status AssistantStatus.processing
        (some ("Running " ++ toString count ++ " MCP action(s)...")) := by
  unfold statusEventOf
  rw [if_pos ⟨h, rfl⟩]

lemma statusEventOf_idle :
    statusEventOf 0 false =
      BusEvent.status AssistantStatus.idle (some "Assistant ready.") := by
  unfold statusEventOf
  rw [if_neg (by simp), if_neg (by simp)]

/-- C5: `completeAction(id, status, message?)` removes id from the in-flight
set — idempotently, a second identical call leaves the set unchanged — and
publishes the aggregate status recomputed exactly as: processing with the
remaining count when actions remain in-flight and the event is not an error,
error when the event is an error, idle otherwise; a supplied message is
logged at the matching level. -/
theorem c5_completeAction_spec (s : McpCoordinator) (aid : String) (st : CompletionStatus)
    (m : Option String) :
    (completeAction s aid st m).inflightActions = s.inflightActions.erase aid ∧
    (completeAction (completeAction s aid st m) aid st m).inflightActions =
      (completeAction s aid st m).inflightActions ∧
    (completeAction s aid st m).bus =
      s.bus ++
        [statusEventOf (s.inflightActions.erase aid).card
          (decide (st = CompletionStatus.error))] ++
        completionLogTail st m ∧
    (∀ count, statusEventOf count true =
      BusEvent.status AssistantStatus.error (some "Latest MCP action reported an error.")) ∧
    (∀ count, 0 < count → statusEventOf count false =
      BusEvent.status AssistantStatus.processing
        (some ("Running " ++ toString count ++ " MCP action(s)..."))) ∧
    statusEventOf 0 false =
      BusEvent.status AssistantStatus.idle (some "Assistant ready.") := by
  refine ⟨completeAction_inflight s aid st m, ?_, completeAction_bus s aid st m,
    statusEventOf_error, statusEventOf_processing, statusEventOf_idle⟩
  simp only [completeAction_inflight, Finset.erase_idem]

theorem c5_completeAction_spec_witness :
    (0 : Nat) < 2 ∧
      statusEventOf 2 false =
        BusEvent.status AssistantStatus.processing
          (some ("Running " ++ toString 2 ++ " MCP action(s)...")) :=
  ⟨by decide,
    (c5_completeAction_spec initCoordinator "a" CompletionStatus.success none).2.2.2.2.1 2
      (by decide)⟩

/-- C10 (implicit): an inbound action-complete frame whose actionId is not in
the in-flight set is still processed — the set is unchanged, the aggregate
status is recomputed and published (error status publishes an error event;
success with an empty set publishes idle), and a supplied message is still
logged. -/
theorem c10_unknown_completion_processed (s : McpCoordinator) (p : McpActionCompletePayload)
    (hid : p.actionId ≠ "") (hnotin : p.actionId ∉ s.inflightActions) :
    handleActionComplete s (some p) =
      completeAction s p.actionId (p.status.getD CompletionStatus.success) p.message ∧
    (handleActionComplete s (some p)).inflightActions = s.inflightActions ∧
    (p.status = some CompletionStatus.error →
      (handleActionComplete s (some p)).bus =
        s.bus ++
          [BusEvent.status AssistantStatus.error
            (some "Latest MCP action reported an error.")] ++
          completionLogTail CompletionStatus.error p.message) ∧
    (p.status.getD CompletionStatus.success = CompletionStatus.success →
      s.inflightActions = ∅ →
      (handleActionComplete s (some p)).bus =
        s.bus ++ [BusEvent.status AssistantStatus.idle (some "Assistant ready.")] ++
          completionLogTail CompletionStatus.success p.message) ∧
    (∀ msg, p.message = some msg →
      BusEvent.log msg
          (if p.status.getD CompletionStatus.success = CompletionStatus.error then
            LogLevel.error
          else LogLevel.info) ∈
        (handleActionComplete s (some p)).bus) := by
  have heq : handleActionComplete s (some p) =
      completeAction s p.actionId (p.status.getD CompletionStatus.success) p.message := by
    unfold handleActionComplete
    dsimp only
    rw [if_neg hid]
  have herase : s.inflightActions.erase p.actionId = s.inflightActions :=
    Finset.erase_eq_of_not_mem hnotin
  refine ⟨heq, ?_, ?_, ?_, ?_⟩
  · rw [heq, completeAction_inflight, herase]
  · intro hst
    rw [heq, completeAction_bus, herase, hst]
    rw [show (some CompletionStatus.error).getD CompletionStatus.success =
      CompletionStatus.error from rfl]
    rw [show decide (CompletionStatus.error = CompletionStatus.error) = true from rfl]
    rw [statusEventOf_error]
  · intro hst hempty
    rw [heq, completeAction_bus, herase, hempty, hst]
    rw [show (∅ : Finset String).card = 0 from rfl]
    rw [show decide (CompletionStatus.success = CompletionStatus.error) = false from rfl]
    rw [statusEventOf_idle]
  · intro msg hmsg
    rw [heq, completeAction_bus, hmsg]
    apply List.mem_append.2
    apply Or.inr
    unfold completionLogTail
    exact List.mem_cons.2 (Or.inl rfl)

def c10Payload : McpActionCompletePayload :=
  { actionId := "ghost", status := some CompletionStatus.error, message := some "boom" }

theorem c10_unknown_completion_processed_witness :
    c10Payload.actionId ≠ "" ∧ c10Payload.actionId ∉ initCoordinator.inflightActions ∧
    (handleActionComplete initCoordinator (some c10Payload)).inflightActions =
      initCoordinator.inflightActions :=
  ⟨by decide, by decide,
    (c10_unknown_completion_processed initCoordinator c10Payload (by decide)
      (by decide)).2.1⟩

/-! ### Claim C7: clearing remote actions on disconnect -/

lemma removeActionsBySource_sourceIndex_self (o : ActionOrchestrator) (src : String) :
    (removeActionsBySource o src).sourceIndex src = ∅ := by
  unfold removeActionsBySource
  dsimp only
  split
  · assumption
  · simp

lemma removeActionsBySource_lookup_bucket (o : ActionOrchestrator) (src aid : String)
    (h : aid ∈ o.sourceIndex src) :
    mapLookup (removeActionsBySource o src).actionMap aid = none := by
  unfold removeActionsBySource
  dsimp only
  split
  · rename_i hb
    rw [hb] at h
    exact absurd h (Finset.not_mem_empty aid)
  · exact mapLookup_filter_notMem _ _ _ h

/-- C7: whenever the bridge state transitions to Disconnected or Error, the
coordinator clears every remote-action mapping and empties the registry's
remote-source bucket (every action that was in the `mcp` bucket is gone from
the map), logs the clearing, and leaves the in-flight set untouched. -/
theorem c7_clear_on_disconnect (s : McpCoordinator) (st : BridgeState)
    (h : st = BridgeState.disconnected ∨ st = BridgeState.error) :
    (∀ rid, (onBridgeStateChanged s st).remoteActions rid = none) ∧
    (onBridgeStateChanged s st).orchestrator.sourceIndex "mcp" = ∅ ∧
    (∀ aid, aid ∈ s.orchestrator.sourceIndex "mcp" →
      mapLookup (onBridgeStateChanged s st).orchestrator.actionMap aid = none) ∧
    (onBridgeStateChanged s st).inflightActions = s.inflightActions ∧
    (onBridgeStateChanged s st).bus =
      s.bus ++ [BusEvent.log "Cleared MCP actions due to bridge disconnect." LogLevel.info] := by
  have hbr : onBridgeStateChanged s st = clearRemoteActions s := by
    unfold onBridgeStateChanged
    rw [if_pos h]
  rw [hbr]
  unfold clearRemoteActions
  refine ⟨fun rid => rfl, ?_, ?_, rfl, rfl⟩
  · show (setActionsForSource s.orchestrator "mcp" []).sourceIndex "mcp" = ∅
    show (removeActionsBySource s.orchestrator "mcp").sourceIndex "mcp" = ∅
    exact removeActionsBySource_sourceIndex_self _ _
  · intro aid hmem
    show mapLookup (setActionsForSource s.orchestrator "mcp" []).actionMap aid = none
    show mapLookup (removeActionsBySource s.orchestrator "mcp").actionMap aid = none
    exact removeActionsBySource_lookup_bucket _ _ _ hmem

theorem c7_clear_on_disconnect_witness :
    (BridgeState.disconnected = BridgeState.disconnected ∨
      BridgeState.disconnected = BridgeState.error) ∧
    (onBridgeStateChanged initCoordinator BridgeState.disconnected).inflightActions =
      initCoordinator.inflightActions :=
  ⟨Or.inl rfl,
    (c7_clear_on_disconnect initCoordinator BridgeState.disconnected (Or.inl rfl)).2.2.2.1⟩

/-! ### Claim C4: action-state-update patching -/

/-- C4 (amended): for an action-state-update whose actionId maps to a known
remote action, the registry entry is patched so that label, description and
emphasis fall back to the original descriptor's values when the payload does
not supply them, while `disabled` is always overwritten with the payload's
value — cleared (undefined) when the payload omits it, not restored from the
descriptor; an update for an unknown id is a no-op. -/
theorem c4_state_update_patch (s : McpCoordinator) (p : McpActionStateUpdatePayload)
    (mapping : RemoteActionRecord) (existing : AssistantAction)
    (hid : p.actionId ≠ "")
    (hmap : s.remoteActions p.actionId = some mapping)
    (hex : mapLookup s.orchestrator.actionMap mapping.clientId = some existing) :
    mapLookup (handleActionStateUpdate s (some p)).orchestrator.actionMap mapping.clientId =
      some { existing with
        label := p.label.getD mapping.descriptor.label,
        description := p.description.or mapping.descriptor.description,
        emphasis := p.emphasis.or mapping.descriptor.emphasis,
        disabled := p.disabled,
        source := some "mcp" } ∧
    (∀ k, k ≠ mapping.clientId →
      mapLookup (handleActionStateUpdate s (some p)).orchestrator.actionMap k =
        mapLookup s.orchestrator.actionMap k) ∧
    (∀ (s' : McpCoordinator) (p' : McpActionStateUpdatePayload),
      s'.remoteActions p'.actionId = none → handleActionStateUpdate s' (some p') = s') := by
  have hh : handleActionStateUpdate s (some p) =
      { s with
        orchestrator := updateAction s.orchestrator mapping.clientId
          { label := some (p.label.getD mapping.descriptor.label),
            description := some (p.description.or mapping.descriptor.description),
            command := none,
            args := none,
            emphasis := some (p.emphasis.or mapping.descriptor.emphasis),
            disabled := some p.disabled,
            source := some (some "mcp") } } := by
    unfold handleActionStateUpdate
    dsimp only
    rw [if_neg hid, hmap]
  refine ⟨?_, ?_, ?_⟩
  · rw [hh]
    show mapLookup (updateAction s.orchestrator mapping.clientId _).actionMap
      mapping.clientId = _
    unfold updateAction
    rw [hex]
    dsimp only
    rw [mapLookup_mapSet_self]
    rfl
  · intro k hk
    rw [hh]
    show mapLookup (updateAction s.orchestrator mapping.clientId _).actionMap k = _
    unfold updateAction
    rw [hex]
    dsimp only
    exact mapLookup_mapSet_ne _ _ _ _ hk
  · intro s' p' hnone
    unfold handleActionStateUpdate
    dsimp only
    by_cases hid' : p'.actionId = ""
    · rw [if_pos hid']
    · rw [if_neg hid', hnone]

def descFmt : McpRemoteActionDescriptor :=
  { id := "fmt", label := "Format", description := none, emphasis := none,
    disabled := some true, sendContextOnInvoke := none }

def c4State1 : McpCoordinator :=
  handleRegisterActions initCoordinator (some { actions := some [descFmt] })

def c4Payload : McpActionStateUpdatePayload :=
  { actionId := "fmt", disabled := none, label := none, description := none, emphasis := none }

def c4State2 : McpCoordinator := handleActionStateUpdate c4State1 (some c4Payload)

/-- C4 counterexample: register a remote action whose descriptor has
disabled = true, then deliver an action-state-update that supplies none of
the four fields; the resulting registry entry's `disabled` is undefined, not
the descriptor's `true` — so the unsupplied `disabled` field does not fall
back to the original descriptor's value. -/
theorem c4_disabled_no_fallback_counterexample :
    descFmt.disabled = some true ∧
    (mapLookup c4State1.orchestrator.actionMap "mcp:fmt").map (fun a => a.disabled) =
      some (some true) ∧
    (mapLookup c4State2.orchestrator.actionMap "mcp:fmt").map (fun a => a.disabled) =
      some none :=
  ⟨rfl, by decide, by decide⟩

def c4Existing : AssistantAction :=
  { id := "mcp:fmt", label := "Format", description := none,
    command := "genRefactorer.assistant.runMcpAction", args := some ["fmt"],
    emphasis := none, disabled := some true, source := some "mcp" }

theorem c4_state_update_patch_witness :
    c4Payload.actionId ≠ "" ∧
    c4State1.remoteActions c4Payload.actionId =
      some { descriptor := descFmt, clientId := "mcp:fmt" } ∧
    mapLookup c4State1.orchestrator.actionMap "mcp:fmt" = some c4Existing ∧
    mapLookup (handleActionStateUpdate c4State1 (some c4Payload)).orchestrator.actionMap
      "mcp:fmt" =
      some { c4Existing with
        label := c4Payload.label.getD descFmt.label,
        description := c4Payload.description.or descFmt.description,
        emphasis := c4Payload.emphasis.or descFmt.emphasis,
        disabled := c4Payload.disabled,
        source := some "mcp" } :=
  ⟨by decide, by decide, by decide,
    (c4_state_update_patch c4State1 c4Payload
      { descriptor := descFmt, clientId := "mcp:fmt" } c4Existing (by decide) (by decide)
      (by decide)).1⟩

/-! ### Claim C6: the remote-id → client-id transform -/

/-- C6 counterexample: the transform is not injective (hence not reversible):
the distinct remote ids "x" and "mcp:x" both map to the client id "mcp:x". -/
theorem c6_toClientActionId_not_injective :
    toClientActionId "x" = toClientActionId "mcp:x" ∧ "x" ≠ "mcp:x" := by
  constructor
  · decide
  · decide

/-- C6 (amended): the transform is deterministic (a function of the remote id
alone) and injective on remote ids that do not already carry the "mcp:"
pre-tag; only a pair such as "x" versus "mcp:x" can collide. -/
theorem c6_toClientActionId_injective_on_untagged (a b : String)
    (ha : strStartsWith a "mcp:" = false) (hb : strStartsWith b "mcp:" = false)
    (h : toClientActionId a = toClientActionId b) : a = b := by
  unfold toClientActionId at h
  rw [if_neg (by simp [ha]), if_neg (by simp [hb])] at h
  have hd := congrArg String.data h
  simp only [String.data_append] at hd
  exact String.ext (List.append_cancel_left hd)

theorem c6_toClientActionId_injective_on_untagged_witness :
    (strStartsWith "a1" "mcp:" = false) ∧
    toClientActionId "a1" = toClientActionId "a1" ∧ ("a1" : String) = "a1" :=
  ⟨by decide, rfl,
    c6_toClientActionId_injective_on_untagged "a1" "a1" (by decide) (by decide) rfl⟩

/-! ### Claim C8: process-mode task sequences -/

/-- The log entries of one executed sequence step. -/
def stepLogsP (p : McpTaskSequenceEntry × ProcOutcome) : List BusEvent :=
  stepLogs p.1.command (p.1.args.getD []) p.2

lemma runProcessLoop_all_ok (l : List (McpTaskSequenceEntry × ProcOutcome)) :
    ∀ s : McpCoordinator, (∀ p ∈ l, stepError p.1.command p.2 = none) →
      runProcessLoop s l = ({ s with bus := s.bus ++ (l.map stepLogsP).flatten }, none) := by
  induction l with
  | nil =>
      intro s _
      simp [runProcessLoop]
  | cons p rest ih =>
      intro s hok
      obtain ⟨e, o⟩ := p
      have hh : stepError e.command o = none :=
        hok (e, o) (List.mem_cons.2 (Or.inl rfl))
      rw [runProcessLoop, spawnProcessC, hh]
      dsimp only
      rw [ih _ (fun q hq => hok q (List.mem_cons.2 (Or.inr hq)))]
      simp [stepLogsP, List.append_assoc]

lemma runProcessLoop_first_fail (pre : List (McpTaskSequenceEntry × ProcOutcome)) :
    ∀ (s : McpCoordinator) (post : List (McpTaskSequenceEntry × ProcOutcome))
      (e : McpTaskSequenceEntry) (o : ProcOutcome) (m : String),
      (∀ p ∈ pre, stepError p.1.command p.2 = none) →
      stepError e.command o = some m →
      runProcessLoop s (pre ++ (e, o) :: post) =
        ({ s with bus := s.bus ++ (pre.map stepLogsP).flatten ++ stepLogsP (e, o) },
          some m) := by
  induction pre with
  | nil =>
      intro s post e o m _ hfail
      rw [List.nil_append, runProcessLoop, spawnProcessC, hfail]
      simp [stepLogsP]
  | cons p rest ih =>
      intro s post e o m hok hfail
      obtain ⟨e1, o1⟩ := p
      have hh : stepError e1.command o1 = none :=
        hok (e1, o1) (List.mem_cons.2 (Or.inl rfl))
      rw [List.cons_append, runProcessLoop, spawnProcessC, hh]
      dsimp only
      rw [ih _ post e o m (fun q hq => hok q (List.mem_cons.2 (Or.inr hq))) hfail]
      simp [stepLogsP, List.append_assoc]

/-- C8: in process mode the sequence entries run strictly in order, each
awaited before the next; when every step exits with code 0 the action is
marked complete-success, and on the first failing step (nonzero exit or
spawn error) no later entry is ever started — the bus carries logs only for
the entries before and including the failing one — and the action is marked
complete-error with the failure message.  The last conjunct connects
`handleTaskRequest` in process mode with a non-empty normalized sequence to
this execution path. -/
theorem c8_process_mode_sequential :
    (∀ (s : McpCoordinator) (l : List (McpTaskSequenceEntry × ProcOutcome)) (aid : String),
      (∀ p ∈ l, stepError p.1.command p.2 = none) →
      runProcessCommands s l (some aid) =
        completeAction { s with bus := s.bus ++ (l.map stepLogsP).flatten } aid
          CompletionStatus.success
          (some ("Completed " ++ toString l.length ++ " command(s).")) ∧
      (runProcessCommands s l (some aid)).completions =
        s.completions ++
          [(aid, CompletionStatus.success,
            some ("Completed " ++ toString l.length ++ " command(s)."))]) ∧
    (∀ (s : McpCoordinator) (pre post : List (McpTaskSequenceEntry × ProcOutcome))
        (e : McpTaskSequenceEntry) (o : ProcOutcome) (m : String) (aid : String),
      (∀ p ∈ pre, stepError p.1.command p.2 = none) →
      stepError e.command o = some m →
      runProcessCommands s (pre ++ (e, o) :: post) (some aid) =
        completeAction
          (busLogC
            { s with bus := s.bus ++ (pre.map stepLogsP).flatten ++ stepLogsP (e, o) }
            ("MCP task failed: " ++ m) LogLevel.error)
          aid CompletionStatus.error (some m) ∧
      (runProcessCommands s (pre ++ (e, o) :: post) (some aid)).completions =
        s.completions ++ [(aid, CompletionStatus.error, some m)]) ∧
    (∀ (s : McpCoordinator) (p : McpTaskRequestPayload) (outcomes : List ProcOutcome),
      p.mode = some TaskMode.process → normalizeTaskSequence p ≠ [] →
      handleTaskRequest s (some p) outcomes =
        runProcessCommands s ((normalizeTaskSequence p).zip outcomes) p.actionId) := by
  refine ⟨?_, ?_, ?_⟩
  · intro s l aid hok
    have hrun := runProcessLoop_all_ok l s hok
    have heq : runProcessCommands s l (some aid) =
        completeAction { s with bus := s.bus ++ (l.map stepLogsP).flatten } aid
          CompletionStatus.success
          (some ("Completed " ++ toString l.length ++ " command(s).")) := by
      rw [runProcessCommands, hrun]
    refine ⟨heq, ?_⟩
    rw [heq, completeAction_completions]
  · intro s pre post e o m aid hok hfail
    have hrun := runProcessLoop_first_fail pre s post e o m hok hfail
    have heq : runProcessCommands s (pre ++ (e, o) :: post) (some aid) =
        completeAction
          (busLogC
            { s with bus := s.bus ++ (pre.map stepLogsP).flatten ++ stepLogsP (e, o) }
            ("MCP task failed: " ++ m) LogLevel.error)
          aid CompletionStatus.error (some m) := by
      rw [runProcessCommands, hrun]
    refine ⟨heq, ?_⟩
    rw [heq, completeAction_completions, busLogC_completions]
  · intro s p outcomes hmode hseq
    rw [handleTaskRequest]
    rw [if_neg (by simpa [List.length_eq_zero] using hseq)]
    rw [hmode]
    rw [if_pos (show (some TaskMode.process).getD TaskMode.terminal = TaskMode.process
      from rfl)]

def c8EntryFail : McpTaskSequenceEntry := { command := "false", args := none }

def c8EntryOk : McpTaskSequenceEntry := { command := "true", args := none }

def c8OutcomeFail : ProcOutcome :=
  { stdoutLines := [], stderrLines := [], result := ProcResult.failed "boom" }

def c8OutcomeOk : ProcOutcome :=
  { stdoutLines := [], stderrLines := [], result := ProcResult.exited 0 }

theorem c8_process_mode_sequential_witness :
    (∀ p ∈ ([] : List (McpTaskSequenceEntry × ProcOutcome)),
      stepError p.1.command p.2 = none) ∧
    stepError c8EntryFail.command c8OutcomeFail = some "boom" ∧
    (runProcessCommands initCoordinator
        ([] ++ (c8EntryFail, c8OutcomeFail) :: [(c8EntryOk, c8OutcomeOk)])
        (some "act")).completions =
      initCoordinator.completions ++ [("act", CompletionStatus.error, some "boom")] :=
  ⟨fun p hp => absurd hp (List.not_mem_nil p), rfl,
    (c8_process_mode_sequential.2.1 initCoordinator [] [(c8EntryOk, c8OutcomeOk)]
      c8EntryFail c8OutcomeFail "boom" "act" (fun p hp => absurd hp (List.not_mem_nil p))
      rfl).2⟩

end GenRefactorer
